import Mathlib

/-!
Shallow embedding of the form-detection and navigation engine of the
hiya-voice browser extension (class `FormDetector`, file embedded from
`src/unnamed/part_002`, second document, lines 906-1800).

The DOM is modelled as a static tree of element/text nodes; an element is
addressed by its child-index path from the document root (taken to be the
`body` element).  Live element state that the engine reads and writes
(`.value`, `.checked`, `aria-checked`) is snapshotted into the `FormField`
records the detector produces, mirroring the fact that the engine itself is
the only writer in the executions the claims describe.  Layout-dependent
queries (`getComputedStyle`, `offsetParent`) are modelled from inline
`style` attributes only (no stylesheets), which is the only styling the
modelled documents carry.

JavaScript string primitives (`trim`, `toLowerCase`, `split`, `includes`,
the specific regular expressions of `detectFieldType`, truthiness-based
`||` fallbacks) are reproduced as executable Lean functions, and the
floating-point computation of `getFormState`'s completion percentage is
modelled by explicit IEEE-754 binary64 rounding on exact rationals
represented as numerator/denominator pairs.
-/

namespace HiyaSpec

/-! ## JavaScript string primitives -/

/-- Whitespace characters relevant to the modelled strings (the members of the
JS `\s` class that ASCII documents can contain: space, tab, LF, VT, FF, CR). -/
def jsWs (c : Char) : Bool :=
  c == ' ' || c == '\t' || c == '\n' || c == '\x0b' || c == '\x0c' || c == '\r'

/-- `String.prototype.trim`. -/
def jsTrim (s : String) : String :=
  ⟨((s.toList.dropWhile jsWs).reverse.dropWhile jsWs).reverse⟩

/-- JS string fallback `a || b` (empty string is falsy). -/
def jsOr (a b : String) : String := if a = "" then b else a

/-- `toLowerCase` on the ASCII strings the engine deals with. -/
def jsLower (s : String) : String := ⟨s.toList.map Char.toLower⟩

/-- One rewriting pass of `replace(/\s+/g, ' ')`: every maximal run of
whitespace becomes a single space. -/
def collapseWsList : List Char → List Char
  | [] => []
  | [c] => [if jsWs c then ' ' else c]
  | c :: c' :: cs =>
    if jsWs c && jsWs c' then collapseWsList (c' :: cs)
    else (if jsWs c then ' ' else c) :: collapseWsList (c' :: cs)

/-- `replace(/[*:]\s*$/, '')`: drop a single trailing `*` or `:` together with
the whitespace that follows it; leave the string unchanged when the suffix
does not have that shape. -/
def stripDecorList (cs : List Char) : List Char :=
  let rev := cs.reverse
  let rest := rev.dropWhile jsWs
  match rest with
  | c :: rest' => if c == '*' || c == ':' then rest'.reverse else cs
  | [] => cs

/-- Does `pat` occur at the head of `l`? -/
def leadsWith : List Char → List Char → Bool
  | [], _ => true
  | _ :: _, [] => false
  | a :: as, b :: bs => a == b && leadsWith as bs

/-- Does `pat` occur anywhere in `l`? -/
def hasSubList (pat : List Char) : List Char → Bool
  | [] => leadsWith pat []
  | c :: cs => leadsWith pat (c :: cs) || hasSubList pat cs

/-- `String.prototype.includes`. -/
def jsIncludes (s pat : String) : Bool := hasSubList pat.toList s.toList

/-- `value.split(',')` on the character list (JS splits at every comma and
produces `[""]` for the empty string). -/
def splitCommaList : List Char → List (List Char)
  | [] => [[]]
  | c :: cs =>
    let r := splitCommaList cs
    if c == ',' then [] :: r
    else match r with
      | h :: t => (c :: h) :: t
      | [] => [[c]]

/-- `value.split(',')`. -/
def jsSplitComma (s : String) : List String :=
  (splitCommaList s.toList).map (fun l => ⟨l⟩)

/-- `name.replace(/[_-]/g, ' ')`. -/
def underscoresToSpaces (s : String) : String :=
  ⟨s.toList.map (fun c => if c == '_' || c == '-' then ' ' else c)⟩

/-! ## The word-boundary regular expressions of `detectFieldType`

Each regex used by the type-inference fallback has the shape
`\b(alt|alt|...)\b` where every alternative is a sequence of literal words
optionally separated by `[\s-]?`.  They are represented as token lists and
matched with explicit word-boundary checks (`\w` = `[A-Za-z0-9_]`). -/

/-- JS `\w`. -/
def isWordChar (c : Char) : Bool :=
  ('a' ≤ c && c ≤ 'z') || ('A' ≤ c && c ≤ 'Z') || ('0' ≤ c && c ≤ '9') || c == '_'

/-- A token of one regex alternative: a literal, or the optional class
`[\s-]?`. -/
inductive RTok where
  | lit (s : String)
  | wsDash
deriving Repr

/-- All possible remainders of `cs` after consuming the token sequence. -/
def matchToks : List RTok → List Char → List (List Char)
  | [], cs => [cs]
  | .lit s :: ts, cs =>
    if leadsWith s.toList cs then matchToks ts (cs.drop s.toList.length) else []
  | .wsDash :: ts, cs =>
    matchToks ts cs ++
      (match cs with
       | c :: cs' => if jsWs c || c == '-' then matchToks ts cs' else []
       | [] => [])

/-- Does `\b(alts)\b` match starting exactly at the head of `cs`, where `prev`
is the character just before that position?  (Every alternative starts and
ends with a word character, so the left boundary only constrains `prev` and
the right boundary only constrains the remainder's head.) -/
def wbMatchHere (alts : List (List RTok)) (prev : Option Char) (cs : List Char) : Bool :=
  (match prev with | none => true | some c => !isWordChar c) &&
  alts.any (fun alt =>
    (matchToks alt cs).any (fun rem =>
      match rem with
      | [] => true
      | c :: _ => !isWordChar c))

/-- Scan for a match of `\b(alts)\b` anywhere in the list. -/
def reTestGo (alts : List (List RTok)) : Option Char → List Char → Bool
  | prev, [] => wbMatchHere alts prev []
  | prev, c :: cs => wbMatchHere alts prev (c :: cs) || reTestGo alts (some c) cs

/-- `combined.match(/\b(...)\b/) !== null`. -/
def reTest (alts : List (List RTok)) (s : String) : Bool :=
  reTestGo alts none s.toList

def reFirstName : List (List RTok) :=
  [[.lit "first", .wsDash, .lit "name"], [.lit "fname"], [.lit "given", .wsDash, .lit "name"]]

def reLastName : List (List RTok) :=
  [[.lit "last", .wsDash, .lit "name"], [.lit "lname"], [.lit "surname"],
   [.lit "family", .wsDash, .lit "name"]]

def reName : List (List RTok) :=
  [[.lit "full", .wsDash, .lit "name"], [.lit "your", .wsDash, .lit "name"], [.lit "name"]]

def reAddress : List (List RTok) :=
  [[.lit "street"], [.lit "address", .wsDash, .lit "line"], [.lit "address"]]

def reCity : List (List RTok) := [[.lit "city"], [.lit "town"]]

def reState : List (List RTok) := [[.lit "state"], [.lit "province"], [.lit "region"]]

def reZip : List (List RTok) :=
  [[.lit "zip"], [.lit "postal", .wsDash, .lit "code"], [.lit "postcode"]]

def reCountry : List (List RTok) := [[.lit "country"], [.lit "nation"]]

def reCompany : List (List RTok) :=
  [[.lit "company"], [.lit "organization"], [.lit "employer"]]

def reJobTitle : List (List RTok) :=
  [[.lit "job", .wsDash, .lit "title"], [.lit "position"], [.lit "role"], [.lit "title"]]

/-! ## The DOM model

A document is a tree of element and text nodes; the root of the tree plays
the role of `document.body`.  Tags are stored lowercase (`tagName`
comparisons against uppercase literals in the source are translated to the
lowercase spelling).  An element in a document is addressed by its path of
child indices from the root. -/

inductive Node where
  | elem (tag : String) (attrs : List (String × String)) (children : List Node)
  | text (s : String)

abbrev Path := List Nat

def Node.childNodes : Node → List Node
  | .elem _ _ cs => cs
  | .text _ => []

def Node.isElem : Node → Bool
  | .elem _ _ _ => true
  | .text _ => false

def Node.tag : Node → String
  | .elem t _ _ => t
  | .text _ => ""

/-- `getAttribute`: `none` models JS `null`. -/
def Node.getAttr (n : Node) (k : String) : Option String :=
  match n with
  | .elem _ attrs _ => (attrs.find? (fun a => a.1 == k)).map (·.2)
  | .text _ => none

/-- `hasAttribute`. -/
def Node.hasAttr (n : Node) (k : String) : Bool := (n.getAttr k).isSome

mutual

/-- `textContent` of a node: the concatenation of all descendant text. -/
def Node.textContent : Node → String
  | .elem _ _ cs => textContentOfList cs
  | .text s => s

def textContentOfList : List Node → String
  | [] => ""
  | n :: ns => n.textContent ++ textContentOfList ns

end

mutual

/-- `textContent` after removing every subtree whose tag is in `excl`
(models reading a label clone with nested `input, textarea, select`
elements removed). -/
def Node.textContentExcl (excl : List String) : Node → String
  | .elem t _ cs => if excl.contains t then "" else textContentExclOfList excl cs
  | .text s => s

def textContentExclOfList (excl : List String) : List Node → String
  | [] => ""
  | n :: ns => n.textContentExcl excl ++ textContentExclOfList excl ns

end

mutual

/-- Paths of all proper descendants of a node, in document (preorder)
order, relative to the node itself. -/
def Node.descPaths : Node → List Path
  | .elem _ _ cs => descPathsOfList 0 cs
  | .text _ => []

def descPathsOfList : Nat → List Node → List Path
  | _, [] => []
  | i, c :: cs => ([i] :: (c.descPaths.map (i :: ·))) ++ descPathsOfList (i + 1) cs

end

/-- Resolve a path to a node. -/
def Node.sub : Node → Path → Option Node
  | n, [] => some n
  | n, i :: p =>
    match n.childNodes.get? i with
    | some c => c.sub p
    | none => none

/-! ### Selectors

Only the selector shapes the engine actually uses are modelled. -/

inductive Sel where
  | tagIs (t : String)
  | anyTag (ts : List String)
  | attrIs (k v : String)
  | withAttr (k : String)
  | idIs (v : String)
  | tagAttr (t k v : String)

def Sel.matches : Sel → Node → Bool
  | _, .text _ => false
  | .tagIs t, .elem t' _ _ => t' == t
  | .anyTag ts, .elem t' _ _ => ts.contains t'
  | .attrIs k v, n => n.getAttr k == some v
  | .withAttr k, n => n.hasAttr k
  | .idIs v, n => n.getAttr "id" == some v
  | .tagAttr t k v, n => n.tag == t && n.getAttr k == some v

/-- `querySelectorAll` scoped at the element at `base`: absolute paths of
its matching proper descendants, in document order.  (With `base = []` this
is a document-wide query; the selectors used never match the root.) -/
def queryAll (doc : Node) (base : Path) (sel : Sel) : List Path :=
  match doc.sub base with
  | some n =>
    ((n.descPaths.filter (fun p =>
        match n.sub p with
        | some m => sel.matches m
        | none => false)).map (base ++ ·))
  | none => []

/-- `querySelector`: first match in document order, or `none`. -/
def query1 (doc : Node) (base : Path) (sel : Sel) : Option Path :=
  (queryAll doc base sel).head?

/-- The element's own path followed by the paths of its ancestors, innermost
first, ending with `[]` (the root). -/
def selfAndAncestors (p : Path) : List Path :=
  ((List.range (p.length + 1)).reverse).map (fun k => p.take k)

/-- `closest(sel)`: the element itself or its nearest ancestor matching. -/
def closest (doc : Node) (p : Path) (sel : Sel) : Option Path :=
  (selfAndAncestors p).find? (fun q =>
    match doc.sub q with
    | some n => sel.matches n
    | none => false)

/-- `parentElement` (the root's parent is `null`). -/
def parentPath (p : Path) : Option Path :=
  if p = [] then none else some p.dropLast

/-- Paths of the previous element siblings of the element at `p`, nearest
first. -/
def prevElemSiblings (doc : Node) (p : Path) : List Path :=
  match p.getLast? with
  | none => []
  | some i =>
    let q := p.dropLast
    match doc.sub q with
    | some par =>
      (((List.range i).reverse).filter (fun j =>
          match par.childNodes.get? j with
          | some c => c.isElem
          | none => false)).map (fun j => q ++ [j])
    | none => []

/-- `document.getElementById`: first element in document order carrying the
id. -/
def getElementById (doc : Node) (v : String) : Option Path :=
  query1 doc [] (Sel.idIs v)

/-! ### Derived element accessors used by the engine -/

/-- `getAttribute` through a path. -/
def attrAt (doc : Node) (p : Path) (k : String) : Option String :=
  match doc.sub p with
  | some n => n.getAttr k
  | none => none

def hasAttrAt (doc : Node) (p : Path) (k : String) : Bool :=
  (attrAt doc p k).isSome

def tagAt (doc : Node) (p : Path) : String :=
  match doc.sub p with
  | some n => n.tag
  | none => ""

def textContentAt (doc : Node) (p : Path) : String :=
  match doc.sub p with
  | some n => n.textContent
  | none => ""

/-- The `id` property (empty string when the attribute is absent). -/
def idAt (doc : Node) (p : Path) : String := (attrAt doc p "id").getD ""

/-- The `className` property (empty string when the attribute is absent). -/
def classNameAt (doc : Node) (p : Path) : String := (attrAt doc p "class").getD ""

/-! ### Inline styles and the layout oracle

`element.style.display` reads the inline `style` attribute.  The modelled
computed style is derived from inline styles alone (the modelled documents
carry no stylesheets), defaulting to `display: block` and
`visibility: visible`; `offsetParent` is `null` exactly when the element or
one of its ancestors has inline `display: none` or the element has inline
`position: fixed`. -/

/-- Parse one inline `style` declaration list and look up a property. -/
def styleProp (style : String) (prop : String) : Option String :=
  ((jsSplitComma (⟨style.toList.map (fun c => if c == ';' then ',' else c)⟩)).findSome?
    (fun decl =>
      match decl.toList.splitOn ':' with
      | [k, v] => if jsLower (jsTrim ⟨k⟩) = prop then some (jsLower (jsTrim ⟨v⟩)) else none
      | _ => none))

/-- Inline `element.style.<prop>` at a path (empty string when unset, as the
CSSOM returns). -/
def inlineStyle (doc : Node) (p : Path) (prop : String) : String :=
  (styleProp ((attrAt doc p "style").getD "") prop).getD ""

/-- Modelled `getComputedStyle(el).display`. -/
def computedDisplay (doc : Node) (p : Path) : String :=
  jsOr (inlineStyle doc p "display") "block"

/-- Modelled `getComputedStyle(el).visibility`. -/
def computedVisibility (doc : Node) (p : Path) : String :=
  jsOr (inlineStyle doc p "visibility") "visible"

/-- Modelled `el.offsetParent === null`. -/
def offsetParentIsNull (doc : Node) (p : Path) : Bool :=
  (selfAndAncestors p).any (fun q => inlineStyle doc q "display" == "none") ||
    inlineStyle doc p "position" == "fixed"

/-! ## Field kinds (`FieldType` in `src/types/form.ts`) -/

inductive FieldType where
  | text | email | phone | number | date | url | password | textarea | select
  | checkbox | radio | file | name | firstName | lastName | address | city
  | state | zip | country | company | jobTitle | unknown
deriving DecidableEq, Repr

/-! ## Label extraction (`FormDetector.extractLabel` and helpers) -/

/-- `FormDetector.cleanLabel`: trim, collapse internal whitespace, strip one
trailing `*` or `:` (with following whitespace), trim again. -/
def cleanLabel (s : String) : String :=
  jsTrim ⟨stripDecorList (collapseWsList (jsTrim s).toList)⟩

/-- One step of `extractGoogleFormsLabelForTextBox`'s ancestor walk: at a
`div` with a `jsmodel` attribute, look for a `role="heading"` descendant
with non-empty `textContent`. -/
def gfTextBoxStep (doc : Node) (q : Path) : Option String :=
  match doc.sub q with
  | some n =>
    if n.tag == "div" && n.hasAttr "jsmodel" then
      match query1 doc q (Sel.attrIs "role" "heading") with
      | some hp =>
        let tc := textContentAt doc hp
        if tc ≠ "" then some (jsTrim tc) else none
      | none => none
    else none
  | none => none

def gfWalkTextBox (doc : Node) : List Path → Option String
  | [] => none
  | q :: rest =>
    match gfTextBoxStep doc q with
    | some l => some l
    | none => gfWalkTextBox doc rest

/-- `FormDetector.extractGoogleFormsLabelForTextBox`: walk from the element
through its ancestors (stopping before `document.body`, the root). -/
def extractGoogleFormsLabelForTextBox (doc : Node) (p : Path) : Option String :=
  gfWalkTextBox doc ((selfAndAncestors p).dropLast)

/-- The body of `extractGoogleFormsLabelForGroup` once the first
`div[jsmodel]` ancestor is found (the walk breaks there regardless of the
outcome): descend to a `[jscontroller]` element, its first `div`, a
`role="heading"` inside it, preferring the heading's first `span` text. -/
def gfGroupAtDiv (doc : Node) (q : Path) : Option String :=
  match query1 doc q (Sel.withAttr "jscontroller") with
  | some jc =>
    match query1 doc jc (Sel.tagIs "div") with
    | some fd =>
      match query1 doc fd (Sel.attrIs "role" "heading") with
      | some hp =>
        match query1 doc hp (Sel.tagIs "span") with
        | some sp =>
          if textContentAt doc sp ≠ "" then some (jsTrim (textContentAt doc sp))
          else if textContentAt doc hp ≠ "" then some (jsTrim (textContentAt doc hp))
          else none
        | none =>
          if textContentAt doc hp ≠ "" then some (jsTrim (textContentAt doc hp)) else none
      | none => none
    | none => none
  | none => none

def gfWalkGroup (doc : Node) : List Path → Option String
  | [] => none
  | q :: rest =>
    match doc.sub q with
    | some n =>
      if n.tag == "div" && n.hasAttr "jsmodel" then gfGroupAtDiv doc q
      else gfWalkGroup doc rest
    | none => gfWalkGroup doc rest

/-- `FormDetector.extractGoogleFormsLabelForGroup`. -/
def extractGoogleFormsLabelForGroup (doc : Node) (p : Path) : Option String :=
  gfWalkGroup doc ((selfAndAncestors p).dropLast)

/-- Heuristic 1: a `<label for="ID">` matching the element's id. -/
def labelH1 (doc : Node) (p : Path) : Option String :=
  if idAt doc p ≠ "" then
    match query1 doc [] (Sel.tagAttr "label" "for" (idAt doc p)) with
    | some lp => if textContentAt doc lp ≠ "" then some (textContentAt doc lp) else none
    | none => none
  else none

/-- Heuristic 2: a `<label>` ancestor, read through a clone with nested
`input, textarea, select` subtrees removed. -/
def labelH2 (doc : Node) (p : Path) : Option String :=
  match closest doc p (Sel.tagIs "label") with
  | some lp =>
    let t := ((doc.sub lp).map (Node.textContentExcl ["input", "textarea", "select"])).getD ""
    if jsTrim t ≠ "" then some t else none
  | none => none

/-- Heuristic 3: the `aria-label` attribute. -/
def labelH3 (doc : Node) (p : Path) : Option String :=
  let v := (attrAt doc p "aria-label").getD ""
  if v ≠ "" then some v else none

/-- Heuristics 4 and 5: `aria-labelledby` / `aria-describedby`, resolved to
the referenced element's text. -/
def labelByRef (doc : Node) (p : Path) (attr : String) : Option String :=
  let v := (attrAt doc p attr).getD ""
  if v ≠ "" then
    match getElementById doc v with
    | some le => if textContentAt doc le ≠ "" then some (textContentAt doc le) else none
    | none => none
  else none

/-- Heuristic 6: an immediately preceding `label`/`span`/`div` sibling with
trimmed text of length in `(0, 100)`. -/
def labelH6 (doc : Node) (p : Path) : Option String :=
  match (prevElemSiblings doc p).head? with
  | some sp =>
    if ["label", "span", "div"].contains (tagAt doc sp) then
      let text := jsTrim (textContentAt doc sp)
      if text ≠ "" && text.length < 100 then some text else none
    else none
  | none => none

def isHeadingTag (t : String) : Bool :=
  ["h1", "h2", "h3", "h4", "h5", "h6"].contains t

/-- Heuristic 7: a heading tag among the nearest 3 preceding element
siblings (its text is taken even when empty). -/
def labelH7 (doc : Node) (p : Path) : Option String :=
  ((prevElemSiblings doc p).take 3).findSome? (fun q =>
    if isHeadingTag (tagAt doc q) then some (textContentAt doc q) else none)

/-- Heuristic 8: the parent's `data-label` / `data-field-label` attribute. -/
def labelH8 (doc : Node) (p : Path) : Option String :=
  match parentPath p with
  | some pp =>
    let v := jsOr ((attrAt doc pp "data-label").getD "") ((attrAt doc pp "data-field-label").getD "")
    if v ≠ "" then some v else none
  | none => none

/-- Heuristics 9-11: `placeholder`, `title`, and the `name` attribute with
underscores/hyphens spaced out. -/
def labelAttrFallback (doc : Node) (p : Path) : Option String :=
  let ph := (attrAt doc p "placeholder").getD ""
  if ph ≠ "" then some ph else
  let ti := (attrAt doc p "title").getD ""
  if ti ≠ "" then some ti else
  let nm := (attrAt doc p "name").getD ""
  if nm ≠ "" then some (underscoresToSpaces nm) else none

/-- Heuristic 0: the Google Forms ancestor pattern (the walk's result is
used only when truthy). -/
def labelH0 (doc : Node) (p : Path) : Option String :=
  let gf := (extractGoogleFormsLabelForTextBox doc p).getD ""
  if gf ≠ "" then some gf else none

/-- The raw text of the first label heuristic that wins, honouring each
heuristic's own guards.  In the source every heuristic returns
`cleanLabel(candidate)` directly; factoring the raw winner out is
behaviour-preserving and lets theorems name the winning text. -/
def labelCandidate (doc : Node) (p : Path) : Option String :=
  [labelH0 doc p, labelH1 doc p, labelH2 doc p, labelH3 doc p,
   labelByRef doc p "aria-labelledby", labelByRef doc p "aria-describedby",
   labelH6 doc p, labelH7 doc p, labelH8 doc p,
   labelAttrFallback doc p].findSome? id

/-- `FormDetector.extractLabel`. -/
def extractLabel (doc : Node) (p : Path) : String :=
  match labelCandidate doc p with
  | some t => cleanLabel t
  | none => "Unlabeled field"

/-! ## Type detection (`FormDetector.detectFieldType`) -/

/-- Input types recognised by HTML; an unknown `type` attribute makes the
`type` DOM property report `"text"`. -/
def knownInputTypes : List String :=
  ["text", "search", "tel", "url", "email", "password", "date", "month", "week",
   "time", "datetime-local", "number", "range", "color", "checkbox", "radio",
   "file", "submit", "image", "reset", "button", "hidden"]

/-- The `type` DOM property of an `<input>`. -/
def inputTypeProp (doc : Node) (p : Path) : String :=
  let t := jsLower ((attrAt doc p "type").getD "")
  if knownInputTypes.contains t then t else "text"

/-- The `type` DOM property of a native control. -/
def elemTypeProp (doc : Node) (p : Path) : String :=
  if tagAt doc p = "textarea" then "textarea"
  else if tagAt doc p = "select" then "select-one"
  else inputTypeProp doc p

/-- `FormDetector.detectFieldType`.  The `instanceof` tag tests come first;
then the `type` switch; then the `autocomplete` token tests (a non-empty
value that matches no token falls through); finally keyword heuristics over
`name`, `id`, `placeholder` and the resolved label.  The `organization`
test precedes the `organization-title` test exactly as in the source. -/
def detectFieldType (doc : Node) (p : Path) : FieldType :=
  if tagAt doc p = "textarea" then .textarea
  else if tagAt doc p = "select" then .select
  else
    let type := jsLower (elemTypeProp doc p)
    let nm := jsLower ((attrAt doc p "name").getD "")
    let id := jsLower (idAt doc p)
    let placeholder := jsLower ((attrAt doc p "placeholder").getD "")
    let autocomplete := jsLower ((attrAt doc p "autocomplete").getD "")
    if type == "email" then .email
    else if type == "tel" then .phone
    else if type == "number" then .number
    else if type == "date" then .date
    else if type == "url" then .url
    else if type == "password" then .password
    else if type == "checkbox" then .checkbox
    else if type == "radio" then .radio
    else if type == "file" then .file
    else if autocomplete != "" && jsIncludes autocomplete "email" then .email
    else if autocomplete != "" && jsIncludes autocomplete "tel" then .phone
    else if autocomplete != "" && (autocomplete == "name" || autocomplete == "full-name") then .name
    else if autocomplete != "" && (jsIncludes autocomplete "given-name" || autocomplete == "fname") then .firstName
    else if autocomplete != "" && (jsIncludes autocomplete "family-name" || autocomplete == "lname") then .lastName
    else if autocomplete != "" && (jsIncludes autocomplete "address-line" || autocomplete == "street-address") then .address
    else if autocomplete != "" && jsIncludes autocomplete "address-level2" then .city
    else if autocomplete != "" && jsIncludes autocomplete "address-level1" then .state
    else if autocomplete != "" && jsIncludes autocomplete "postal-code" then .zip
    else if autocomplete != "" && jsIncludes autocomplete "country" then .country
    else if autocomplete != "" && jsIncludes autocomplete "organization" then .company
    else if autocomplete != "" && jsIncludes autocomplete "organization-title" then .jobTitle
    else
      let label := jsLower (extractLabel doc p)
      let combined := jsLower (nm ++ " " ++ id ++ " " ++ placeholder ++ " " ++ label)
      if jsIncludes combined "email" || jsIncludes combined "e-mail" then .email
      else if jsIncludes combined "phone" || jsIncludes combined "tel" ||
          jsIncludes combined "mobile" || jsIncludes combined "cell" then .phone
      else if jsIncludes combined "url" || jsIncludes combined "website" ||
          jsIncludes combined "link" then .url
      else if jsIncludes combined "date" || jsIncludes combined "birth" ||
          jsIncludes combined "dob" then .date
      else if reTest reFirstName combined then .firstName
      else if reTest reLastName combined then .lastName
      else if reTest reName combined && !jsIncludes combined "user" then .name
      else if reTest reAddress combined && !jsIncludes combined "email" then .address
      else if reTest reCity combined then .city
      else if reTest reState combined then .state
      else if reTest reZip combined then .zip
      else if reTest reCountry combined then .country
      else if reTest reCompany combined then .company
      else if reTest reJobTitle combined && !jsIncludes combined "page" then .jobTitle
      else .text

/-! ## Value snapshots (`FormDetector.getFieldValue`) -/

/-- The live `value` DOM property in the static model: the `value` attribute
for inputs, the child text for textareas. -/
def valuePropAt (doc : Node) (p : Path) : String :=
  if tagAt doc p = "textarea" then textContentAt doc p
  else (attrAt doc p "value").getD ""

/-- `HTMLOptionElement.text`: child text content, whitespace-stripped and
collapsed. -/
def optionTextProp (doc : Node) (p : Path) : String :=
  jsTrim ⟨collapseWsList (textContentAt doc p).toList⟩

/-- The selected option of a single `<select>`: the last explicitly
`selected` option, or by default the first option. -/
def selectedOptionPath (doc : Node) (p : Path) : Option Path :=
  let opts := queryAll doc p (Sel.tagIs "option")
  match (opts.filter (fun q => hasAttrAt doc q "selected")).getLast? with
  | some q => some q
  | none => opts.head?

/-- `FormDetector.getFieldValue`. -/
def getFieldValue (doc : Node) (p : Path) : String :=
  if tagAt doc p = "select" then
    match selectedOptionPath doc p with
    | some q => jsOr (optionTextProp doc q) ""
    | none => ""
  else if elemTypeProp doc p == "checkbox" || elemTypeProp doc p == "radio" then
    (if hasAttrAt doc p "checked" then "checked" else "")
  else jsOr (valuePropAt doc p) ""

/-! ## Field records -/

/-- Live state of a field's primary DOM element, as the engine reads and
writes it: whether a `value` property exists (`'value' in element`), its
current string value, and the `checked` flag of native checkbox/radio
inputs. -/
structure ElemState where
  hasValue : Bool
  value : String
  checked : Bool
deriving DecidableEq, Repr

/-- One member element of an ARIA radio/checkbox group, with the data the
engine reads and writes on it. -/
structure AriaMember where
  ariaLabel : Option String
  textContent : String
  firstSpanText : Option String
  ariaChecked : Bool
deriving DecidableEq, Repr

/-- `FormField` of `src/types/form.ts`; the `element` DOM reference is
replaced by the snapshot of the live state the engine accesses through
it. -/
structure FormField where
  elem : ElemState
  type : FieldType
  label : String
  placeholder : Option String
  required : Bool
  value : String
  id : String
  isAria : Bool
  ariaElements : Option (List AriaMember)
  options : Option (List String)
deriving DecidableEq, Repr

/-- Tags whose elements expose a `value` property (`'value' in element`). -/
def tagHasValueProp (t : String) : Bool :=
  ["input", "textarea", "select", "button", "option", "output", "data",
   "meter", "progress", "param", "li"].contains t

def elemStateAt (doc : Node) (p : Path) : ElemState :=
  { hasValue := tagHasValueProp (tagAt doc p)
    value := valuePropAt doc p
    checked := hasAttrAt doc p "checked" }

def ariaMemberAt (doc : Node) (p : Path) : AriaMember :=
  { ariaLabel := attrAt doc p "aria-label"
    textContent := textContentAt doc p
    firstSpanText := (query1 doc p (Sel.tagIs "span")).map (textContentAt doc)
    ariaChecked := attrAt doc p "aria-checked" == some "true" }

/-! ## `FormDetector.createFormField` -/

def createFormField (doc : Node) (p : Path) (index : Nat) : Option FormField :=
  if elemTypeProp doc p == "hidden" || hasAttrAt doc p "disabled" ||
      inlineStyle doc p "display" == "none" then none
  else
    some
      { elem := elemStateAt doc p
        type := detectFieldType doc p
        label := extractLabel doc p
        placeholder :=
          (match attrAt doc p "placeholder" with
           | some s => if s = "" then none else some s
           | none => none)
        required := hasAttrAt doc p "required" || attrAt doc p "aria-required" == some "true"
        value := getFieldValue doc p
        id := jsOr (idAt doc p) ("hiya-field-" ++ toString index)
        isAria := false
        ariaElements := none
        options := none }

/-! ## ARIA group builders -/

/-- The visibility test of the ARIA field builders: computed display not
`none`, computed visibility not `hidden`, `offsetParent` not null. -/
def ariaVisible (doc : Node) (p : Path) : Bool :=
  computedDisplay doc p != "none" && computedVisibility doc p != "hidden" &&
    !offsetParentIsNull doc p

/-- The option-text extraction of the ARIA builders: `aria-label` if truthy,
else the first `span` descendant's trimmed text, else the element's own
trimmed text. -/
def ariaOptionText (doc : Node) (p : Path) : String :=
  let al := (attrAt doc p "aria-label").getD ""
  if al ≠ "" then al
  else
    let sp :=
      match query1 doc p (Sel.tagIs "span") with
      | some q => jsTrim (textContentAt doc q)
      | none => ""
    jsOr sp (jsTrim (textContentAt doc p))

/-- The label resolution shared by the ARIA builders once a group container
`g` was found: Google Forms pattern first, then the container's
`aria-label`, then `aria-labelledby`, each taken only when truthy. -/
def ariaGroupLabel (doc : Node) (g : Path) (dflt : String) : String :=
  let gf := (extractGoogleFormsLabelForGroup doc g).getD ""
  if gf ≠ "" then gf
  else if hasAttrAt doc g "aria-label" then jsOr ((attrAt doc g "aria-label").getD "") dflt
  else if hasAttrAt doc g "aria-labelledby" then
    (let lid := (attrAt doc g "aria-labelledby").getD ""
     if lid ≠ "" then
       match getElementById doc lid with
       | some le => jsOr (jsTrim (textContentAt doc le)) dflt
       | none => dflt
     else dflt)
  else dflt

/-- The resolved label of an ARIA radio group whose first member is `e0`:
through the `role="radiogroup"` container when one exists, else the Google
Forms pattern from the member itself, with the sentinel as fallback. -/
def ariaRadioLabelOf (doc : Node) (e0 : Path) : String :=
  match closest doc e0 (Sel.attrIs "role" "radiogroup") with
  | some g => ariaGroupLabel doc g "Unlabeled radio group"
  | none =>
    let gf := (extractGoogleFormsLabelForGroup doc e0).getD ""
    if gf ≠ "" then gf else "Unlabeled radio group"

/-- The resolved label of an ARIA checkbox group whose first member is
`e0`. -/
def ariaCheckboxLabelOf (doc : Node) (e0 : Path) : String :=
  match closest doc e0 (Sel.attrIs "role" "group") with
  | some g => ariaGroupLabel doc g "Unlabeled checkbox group"
  | none =>
    let gf := (extractGoogleFormsLabelForGroup doc e0).getD ""
    if gf ≠ "" then gf else "Unlabeled checkbox group"

/-- `FormDetector.createAriaRadioField`.  (The builders are only ever called
on non-empty groups; `[]` is mapped to `none` for totality.) -/
def createAriaRadioField (doc : Node) (elements : List Path) (index : Nat) : Option FormField :=
  match elements with
  | [] => none
  | e0 :: _ =>
    if !(elements.any (ariaVisible doc)) then none
    else
      let rg := closest doc e0 (Sel.attrIs "role" "radiogroup")
      let primary := rg.getD e0
      let label := ariaRadioLabelOf doc e0
      let id :=
        match rg with
        | some g => jsOr (idAt doc g) ("hiya-aria-radio-" ++ toString index)
        | none => "hiya-aria-radio-" ++ toString index
      let required :=
        match rg with
        | some g => attrAt doc g "aria-required" == some "true"
        | none => false
      let checkedElement := elements.find? (fun q => attrAt doc q "aria-checked" == some "true")
      let value :=
        match checkedElement with
        | some q => ariaOptionText doc q
        | none => ""
      some
        { elem := elemStateAt doc primary
          type := .radio
          label := label
          placeholder := none
          required := required
          value := value
          id := id
          isAria := true
          ariaElements := some (elements.map (ariaMemberAt doc))
          options := some (elements.map (ariaOptionText doc)) }

def joinCommaSpace : List String → String
  | [] => ""
  | [s] => s
  | s :: rest => s ++ ", " ++ joinCommaSpace rest

/-- `FormDetector.createAriaCheckboxField`.  The primary element is the
`role="group"` container's parent when a container exists (the source goes
one level further up for checkboxes), while label, id and required are read
from the container itself. -/
def createAriaCheckboxField (doc : Node) (elements : List Path) (index : Nat) : Option FormField :=
  match elements with
  | [] => none
  | e0 :: _ =>
    if !(elements.any (ariaVisible doc)) then none
    else
      let grp := closest doc e0 (Sel.attrIs "role" "group")
      let primary :=
        match grp with
        | some g => (parentPath g).getD g
        | none => e0
      let label := ariaCheckboxLabelOf doc e0
      let id :=
        match grp with
        | some g => jsOr (idAt doc g) ("hiya-aria-checkbox-" ++ toString index)
        | none => "hiya-aria-checkbox-" ++ toString index
      let required :=
        match grp with
        | some g => attrAt doc g "aria-required" == some "true"
        | none => false
      let checkedEls := elements.filter (fun q => attrAt doc q "aria-checked" == some "true")
      some
        { elem := elemStateAt doc primary
          type := .checkbox
          label := label
          placeholder := none
          required := required
          value := joinCommaSpace (checkedEls.map (ariaOptionText doc))
          id := id
          isAria := true
          ariaElements := some (elements.map (ariaMemberAt doc))
          options := some (elements.map (ariaOptionText doc)) }

/-! ## Grouping and JavaScript object key order -/

/-- Insertion-ordered grouping map (`radioGroups[key].push(el)`). -/
def insertGrouped (m : List (String × List Path)) (k : String) (v : Path) :
    List (String × List Path) :=
  match m with
  | [] => [(k, [v])]
  | (k', vs) :: rest =>
    if k' == k then (k', vs ++ [v]) :: rest else (k', vs) :: insertGrouped rest k v

def digitsValAux : Nat → List Char → Option Nat
  | acc, [] => some acc
  | acc, c :: cs =>
    if c.isDigit then digitsValAux (acc * 10 + (c.toNat - '0'.toNat)) cs else none

/-- The numeric value of a canonical array-index property key (`"0"`,
`"1"`, ..., no leading zeros, value below `2^32 - 1`), else `none`. -/
def arrayIndexVal (s : String) : Option Nat :=
  match s.toList with
  | [] => none
  | [c] => if c.isDigit then some (c.toNat - '0'.toNat) else none
  | c :: rest =>
    if c.isDigit && c != '0' && rest.all Char.isDigit then
      match digitsValAux 0 (c :: rest) with
      | some n => if n < 4294967295 then some n else none
      | none => none
    else none

def sortInsertByKey (x : Nat × α) : List (Nat × α) → List (Nat × α)
  | [] => [x]
  | y :: ys => if x.1 < y.1 then x :: y :: ys else y :: sortInsertByKey x ys

def sortByKey : List (Nat × α) → List (Nat × α)
  | [] => []
  | x :: xs => sortInsertByKey x (sortByKey xs)

/-- `Object.values` on a string-keyed object built by insertion: array-index
keys enumerate first, in ascending numeric order, then the remaining keys in
insertion order (ECMAScript ordinary own property key order). -/
def jsObjectValues (entries : List (String × α)) : List α :=
  let idx := entries.filterMap (fun e => (arrayIndexVal e.1).map (fun n => (n, e.2)))
  let strs := entries.filter (fun e => (arrayIndexVal e.1).isNone)
  (sortByKey idx).map (·.2) ++ strs.map (·.2)

/-- Enumeration in plain first-encounter order; this is what the spec's
order-stability wording describes. -/
def specOrderValues (entries : List (String × α)) : List α := entries.map (·.2)

/-! ## `FormDetector.detectForms` -/

/-- Is the element inside the extension's own overlay subtree? -/
def inOverlay (doc : Node) (p : Path) : Bool :=
  (closest doc p (Sel.idIs "hiya-overlay-container")).isSome

/-- Document-order scan of `input, textarea, select`, excluding the
overlay. -/
def nativeControlPaths (doc : Node) : List Path :=
  (queryAll doc [] (Sel.anyTag ["input", "textarea", "select"])).filter
    (fun p => !inOverlay doc p)

/-- The native fields, built with each element's index in the scan (the
index advances over skipped elements too, exactly as the source's
`forEach((element, index) => ...)`). -/
def nativeFieldsOf (doc : Node) : List FormField :=
  (nativeControlPaths doc).enum.filterMap (fun ip => createFormField doc ip.2 ip.1)

def radioGroupKey (doc : Node) (p : Path) : String :=
  jsOr (classNameAt doc p) "default-group"

def checkboxGroupKey (doc : Node) (p : Path) : String :=
  match closest doc p (Sel.attrIs "role" "group") with
  | some g => jsOr (idAt doc g) (jsOr (classNameAt doc g) (jsOr (classNameAt doc p) "default-checkbox-group"))
  | none => jsOr (classNameAt doc p) "default-checkbox-group"

def radioGroupsOf (doc : Node) : List (String × List Path) :=
  ((queryAll doc [] (Sel.attrIs "role" "radio")).filter (fun p => !inOverlay doc p)).foldl
    (fun m p => insertGrouped m (radioGroupKey doc p) p) []

def checkboxGroupsOf (doc : Node) : List (String × List Path) :=
  ((queryAll doc [] (Sel.attrIs "role" "checkbox")).filter (fun p => !inOverlay doc p)).foldl
    (fun m p => insertGrouped m (checkboxGroupKey doc p) p) []

/-- Build one field per group, advancing the shared index counter only when
a field is actually created. -/
def buildGroupFields (create : List Path → Nat → Option FormField) :
    List (List Path) → Nat → List FormField × Nat
  | [], i => ([], i)
  | g :: gs, i =>
    match create g i with
    | some f =>
      let r := buildGroupFields create gs (i + 1)
      (f :: r.1, r.2)
    | none => buildGroupFields create gs i

def radioStage (doc : Node) : List FormField × Nat :=
  buildGroupFields (createAriaRadioField doc) (jsObjectValues (radioGroupsOf doc)) 0

/-- The checkbox stage continues the index counter where the radio stage
left it. -/
def checkboxStage (doc : Node) : List FormField :=
  (buildGroupFields (createAriaCheckboxField doc) (jsObjectValues (checkboxGroupsOf doc))
    (radioStage doc).2).1

/-- `FormInfo` of `src/types/form.ts`. -/
structure FormInfo where
  fields : List FormField
  formElement : Option Path
  totalFields : Nat
  requiredFields : Nat
  filledFields : Nat
deriving DecidableEq, Repr

/-- `FormDetector.detectForms`. -/
def detectForms (doc : Node) : FormInfo :=
  let fields := nativeFieldsOf doc ++ (radioStage doc).1 ++ checkboxStage doc
  { fields := fields
    formElement := query1 doc [] (Sel.tagIs "form")
    totalFields := fields.length
    requiredFields := (fields.filter (fun f => f.required)).length
    filledFields := (fields.filter (fun f => jsTrim f.value != "")).length }

/-- Modelled from the spec's order-stability wording: the field list with
radio and checkbox groups enumerated in plain first-encounter order (no
array-index key hoisting).  Used to compare the code's order against the
claimed order. -/
def detectFormsSpecOrderFields (doc : Node) : List FormField :=
  let rs := buildGroupFields (createAriaRadioField doc) (specOrderValues (radioGroupsOf doc)) 0
  nativeFieldsOf doc ++ rs.1 ++
    (buildGroupFields (createAriaCheckboxField doc) (specOrderValues (checkboxGroupsOf doc)) rs.2).1

/-! ## Detector state and navigation -/

/-- A dispatched DOM event (`new Event(name, { bubbles: true })`). -/
structure DomEvent where
  name : String
  bubbles : Bool
deriving DecidableEq, Repr

/-- The mutable state of a `FormDetector` instance: the last-scanned field
list and the cursor (`currentFieldIndex`, initialised to `-1`). -/
structure DetectorState where
  fields : List FormField
  currentFieldIndex : Int
deriving DecidableEq, Repr

/-- JavaScript array indexing `l[i]` (negative indices read `undefined`). -/
def listAtInt (l : List FormField) (i : Int) : Option FormField :=
  if 0 ≤ i then l.get? i.toNat else none

/-- `FormDetector.getCurrentField`. -/
def getCurrentField (s : DetectorState) : Option FormField :=
  if s.currentFieldIndex < 0 ∨ (s.fields.length : Int) ≤ s.currentFieldIndex then none
  else s.fields.get? s.currentFieldIndex.toNat

/-- JavaScript's `%` on integers (truncated remainder). -/
def jsRem (a b : Int) : Int := Int.tmod a b

/-- `FormDetector.nextField`.  The highlight/focus/scroll side effects do
not touch the navigation state and are not modelled. -/
def nextField (s : DetectorState) : Option FormField × DetectorState :=
  if s.fields.length = 0 then (none, s)
  else
    let i := jsRem (s.currentFieldIndex + 1) (s.fields.length : Int)
    (listAtInt s.fields i, { s with currentFieldIndex := i })

/-- `FormDetector.previousField`. -/
def previousField (s : DetectorState) : Option FormField × DetectorState :=
  if s.fields.length = 0 then (none, s)
  else
    let i :=
      if s.currentFieldIndex ≤ 0 then (s.fields.length : Int) - 1
      else s.currentFieldIndex - 1
    (listAtInt s.fields i, { s with currentFieldIndex := i })

/-! ## `FormDetector.fillCurrentField` -/

/-- The option label the fill operation matches against:
`el.getAttribute('aria-label') || el.textContent?.trim() || ''`. -/
def fillOptionLabel (m : AriaMember) : String :=
  jsOr (m.ariaLabel.getD "") (jsTrim m.textContent)

/-- Radio member update of `fillCurrentField` (the Google-Forms visual
class toggling is presentation-only and not modelled). -/
def fillRadioMember (value : String) (m : AriaMember) : AriaMember :=
  if fillOptionLabel m = value then { m with ariaChecked := true }
  else { m with ariaChecked := false }

/-- The comma-split, trimmed item list of a checkbox fill value. -/
def splitTrim (value : String) : List String := (jsSplitComma value).map jsTrim

/-- Checkbox member update of `fillCurrentField`. -/
def fillCheckboxMember (value : String) (m : AriaMember) : AriaMember :=
  if (splitTrim value).contains (fillOptionLabel m) then { m with ariaChecked := true }
  else { m with ariaChecked := false }

/-- The update `fillCurrentField` performs on the current field record (and,
through it, on the live element state): ARIA radio groups re-check the
matching member, ARIA checkbox groups re-check the members whose labels are
among the comma-split items, native elements with a `value` property get the
value written through; the cached `value` is always set for ARIA fields and
set together with the element for natives. -/
def fillFieldUpdate (value : String) (field : FormField) : FormField :=
  if field.isAria then
    let fa :=
      if field.type = FieldType.radio ∧ field.ariaElements.isSome then
        { field with ariaElements := field.ariaElements.map (List.map (fillRadioMember value)) }
      else if field.type = FieldType.checkbox ∧ field.ariaElements.isSome then
        { field with ariaElements := field.ariaElements.map (List.map (fillCheckboxMember value)) }
      else field
    { fa with value := value }
  else
    if field.elem.hasValue then
      { field with elem := { field.elem with value := value }, value := value }
    else field

/-- `FormDetector.fillCurrentField`: the returned flag, the successor
state, and the events dispatched on the field's element. -/
def fillCurrentField (s : DetectorState) (value : String) :
    Bool × DetectorState × List DomEvent :=
  match getCurrentField s with
  | none => (false, s, [])
  | some field =>
    (true, { s with fields := s.fields.set s.currentFieldIndex.toNat (fillFieldUpdate value field) },
      [{ name := "input", bubbles := true }, { name := "change", bubbles := true }])

/-! ## The binary64 completion percentage

`getFormState` computes `Math.round((filledFields / totalFields) * 100)` in
IEEE-754 binary64 arithmetic: both counts are integers (exact as doubles),
the division and the multiplication each round to nearest, ties to even,
and `Math.round` takes `⌊x + 1/2⌋` of the exact value of its argument.
Overflow and subnormals cannot occur in the modelled range `[0, 100]` and
are not modelled. -/

/-- Bit length of a natural number, via an explicit fuel argument to keep
the definition structurally recursive (and hence kernel-reducible). -/
def bitLenAux : Nat → Nat → Nat
  | 0, _ => 0
  | fuel + 1, n => if n = 0 then 0 else bitLenAux fuel (n / 2) + 1

def bitLen (n : Nat) : Nat := bitLenAux n n

/-- Is `2^e ≤ a / b` (for `a, b ≥ 1`)? -/
def pow2LeFrac (e : Int) (a b : Nat) : Bool :=
  if 0 ≤ e then decide (b * 2 ^ e.toNat ≤ a) else decide (b ≤ a * 2 ^ (-e).toNat)

/-- `⌊log₂ (a / b)⌋` for `a, b ≥ 1`. -/
def floorLog2Frac (a b : Nat) : Int :=
  let e0 : Int := (bitLen a : Int) - (bitLen b : Int)
  if pow2LeFrac e0 a b then e0 else e0 - 1

/-- Round `a / b` to the nearest integer, ties to even (`b ≥ 1`). -/
def roundNearestEven (a b : Nat) : Nat :=
  let q := a / b
  let r := a % b
  if 2 * r < b then q
  else if b < 2 * r then q + 1
  else if q % 2 = 0 then q else q + 1

/-- Binary64 rounding of `a / b` (round to nearest, ties to even), returned
as mantissa and exponent: the value is `m * 2^s`. -/
def fl64Frac (a b : Nat) : Nat × Int :=
  if a = 0 then (0, 0)
  else
    let s := floorLog2Frac a b - 52
    let m :=
      if 0 ≤ s then roundNearestEven a (b * 2 ^ s.toNat)
      else roundNearestEven (a * 2 ^ (-s).toNat) b
    (m, s)

/-- `Math.round` of the nonnegative double `m * 2^s`: `⌊m * 2^s + 1/2⌋`. -/
def jsMathRound (ms : Nat × Int) : Nat :=
  if 0 ≤ ms.2 then ms.1 * 2 ^ ms.2.toNat
  else (2 * ms.1 + 2 ^ (-ms.2).toNat) / 2 ^ ((-ms.2).toNat + 1)

/-- `Math.round((filled / total) * 100)` in binary64 (`total ≥ 1`). -/
def jsPercentage (filled total : Nat) : Nat :=
  let d := fl64Frac filled total
  let prod : Nat × Nat :=
    if 0 ≤ d.2 then (d.1 * 100 * 2 ^ d.2.toNat, 1) else (d.1 * 100, 2 ^ (-d.2).toNat)
  jsMathRound (fl64Frac prod.1 prod.2)

/-- Exact `round(100 * filled / total)` (halves rounding up), `0` when
`total = 0`: the formula the spec states. -/
def specRoundPct (filled total : Nat) : Nat :=
  if total = 0 then 0 else (200 * filled + total) / (2 * total)

/-! ## `FormDetector.getFormState` -/

/-- The per-field fill predicate of `getFormState`: ARIA fields by cached
value, native fields by live element state (checked flag for native
checkbox/radio, trimmed value otherwise). -/
def fillPredicate (f : FormField) : Bool :=
  if f.isAria then jsTrim f.value != ""
  else if f.elem.hasValue then
    if f.type = FieldType.checkbox ∨ f.type = FieldType.radio then f.elem.checked
    else jsTrim f.elem.value != ""
  else false

structure FormState where
  totalFields : Nat
  filledFields : Nat
  requiredFields : Nat
  requiredFilledFields : Nat
  completionPercentage : Nat
  isComplete : Bool
deriving DecidableEq, Repr

/-- `FormDetector.getFormState` (operating on the detector's field list). -/
def getFormState (fields : List FormField) : FormState :=
  let totalFields := fields.length
  let filledFields := (fields.filter fillPredicate).length
  let requiredFields := (fields.filter (fun f => f.required)).length
  let requiredFilledFields := (fields.filter (fun f => f.required && fillPredicate f)).length
  { totalFields := totalFields
    filledFields := filledFields
    requiredFields := requiredFields
    requiredFilledFields := requiredFilledFields
    completionPercentage :=
      if 0 < totalFields then jsPercentage filledFields totalFields else 0
    isComplete :=
      if 0 < requiredFields then requiredFilledFields == requiredFields
      else filledFields == totalFields }

/-! ## Auxiliary lemmas -/

theorem jsOr_eq_ite (a b : String) : jsOr a b = if a ≠ "" then a else b := by
  unfold jsOr
  by_cases h : a = "" <;> simp [h]

theorem jsOr_ne_empty (a b : String) (hb : b ≠ "") : jsOr a b ≠ "" := by
  unfold jsOr
  by_cases h : a = "" <;> simp [h, hb]

theorem listSet_get? {α : Type} (l : List α) (i : Nat) (a : α) (h : i < l.length) :
    (l.set i a).get? i = some a := by
  induction l generalizing i with
  | nil => simp at h
  | cons x xs ih =>
    cases i with
    | zero => rfl
    | succ n => simpa using ih n (by simpa using h)

theorem getCurrentField_none_iff (s : DetectorState) :
    getCurrentField s = none ↔
      s.currentFieldIndex < 0 ∨ (s.fields.length : Int) ≤ s.currentFieldIndex := by
  unfold getCurrentField
  split
  · next h => simp [h]
  · next h =>
    push_neg at h
    rw [List.get?_eq_none]
    constructor
    · intro hlen
      exfalso
      omega
    · intro hc
      rcases hc with hc | hc <;> [omega; omega]

theorem getCurrentField_valid (s : DetectorState) (f : FormField)
    (h : getCurrentField s = some f) :
    0 ≤ s.currentFieldIndex ∧ s.currentFieldIndex < (s.fields.length : Int) ∧
      s.fields.get? s.currentFieldIndex.toNat = some f := by
  unfold getCurrentField at h
  split at h
  · exact absurd h (by simp)
  · next hc =>
    push_neg at hc
    exact ⟨hc.1, hc.2, h⟩

theorem fill_of_none (s : DetectorState) (x : String) (h : getCurrentField s = none) :
    fillCurrentField s x = (false, s, []) := by
  unfold fillCurrentField
  rw [h]

theorem fill_of_some (s : DetectorState) (x : String) (f : FormField)
    (h : getCurrentField s = some f) :
    fillCurrentField s x =
      (true,
       { s with fields := s.fields.set s.currentFieldIndex.toNat (fillFieldUpdate x f) },
       [{ name := "input", bubbles := true }, { name := "change", bubbles := true }]) := by
  unfold fillCurrentField
  rw [h]

theorem getCurrentField_set_current (s : DetectorState) (g : FormField)
    (h0 : 0 ≤ s.currentFieldIndex) (h1 : s.currentFieldIndex < (s.fields.length : Int)) :
    getCurrentField { s with fields := s.fields.set s.currentFieldIndex.toNat g } = some g := by
  unfold getCurrentField
  simp only [List.length_set]
  rw [if_neg (by omega)]
  exact listSet_get? _ _ _ (by omega)

theorem fillFieldUpdate_native (x : String) (f : FormField)
    (h1 : f.isAria = false) (h2 : f.elem.hasValue = true) :
    fillFieldUpdate x f = { f with elem := { f.elem with value := x }, value := x } := by
  unfold fillFieldUpdate
  rw [h1]
  simp [h2]

theorem fillFieldUpdate_radio (x : String) (f : FormField) (ms : List AriaMember)
    (h1 : f.isAria = true) (ht : f.type = FieldType.radio) (hm : f.ariaElements = some ms) :
    fillFieldUpdate x f =
      { f with ariaElements := some (ms.map (fillRadioMember x)), value := x } := by
  unfold fillFieldUpdate
  rw [h1]
  simp [ht, hm]

theorem fillFieldUpdate_checkbox (x : String) (f : FormField) (ms : List AriaMember)
    (h1 : f.isAria = true) (ht : f.type = FieldType.checkbox) (hm : f.ariaElements = some ms) :
    fillFieldUpdate x f =
      { f with ariaElements := some (ms.map (fillCheckboxMember x)), value := x } := by
  unfold fillFieldUpdate
  rw [h1]
  simp [ht, hm]

/-! ## Concrete fixtures used by witnesses and counterexamples -/

/-- A plain native text field whose element and cache hold `v`. -/
def sampleTextField (v : String) : FormField :=
  { elem := { hasValue := true, value := v, checked := false }
    type := FieldType.text
    label := "Sample"
    placeholder := none
    required := false
    value := v
    id := "s"
    isAria := false
    ariaElements := none
    options := none }

def c9State : DetectorState := { fields := [sampleTextField ""], currentFieldIndex := 5 }

def c6State : DetectorState :=
  { fields := [sampleTextField "", sampleTextField "x"], currentFieldIndex := -1 }

def c6wState : DetectorState :=
  { fields := [sampleTextField "", sampleTextField "x"], currentFieldIndex := 0 }

def c8State : DetectorState := { fields := [sampleTextField ""], currentFieldIndex := 0 }

def c10Member : AriaMember :=
  { ariaLabel := some "Yes", textContent := "", firstSpanText := none, ariaChecked := true }

def c10Field : FormField :=
  { elem := { hasValue := false, value := "", checked := false }
    type := FieldType.radio
    label := "Q"
    placeholder := none
    required := false
    value := "Yes"
    id := "g"
    isAria := true
    ariaElements := some [c10Member]
    options := some ["Yes"] }

def c10State : DetectorState := { fields := [c10Field], currentFieldIndex := 0 }

/-! ## Claim C9 -/

/-- C9: `getCurrentField` never reads out of bounds in any state (including
a cursor stranded past the end by a shrinking re-scan): it returns `none`
exactly when the cursor is negative or at least the current field-list
length, and for a nonnegative cursor it returns exactly the bounds-checked
list lookup at that index. -/
theorem C9_getCurrentField_safe (s : DetectorState) :
    (getCurrentField s = none ↔
      s.currentFieldIndex < 0 ∨ (s.fields.length : Int) ≤ s.currentFieldIndex) ∧
    (0 ≤ s.currentFieldIndex →
      getCurrentField s = s.fields.get? s.currentFieldIndex.toNat) := by
  refine ⟨getCurrentField_none_iff s, fun h0 => ?_⟩
  unfold getCurrentField
  split
  · next hc =>
    rcases hc with hc | hc
    · omega
    · symm
      rw [List.get?_eq_none]
      omega
  · rfl

/-- Witness for C9 at a state whose field list (length 1) has shrunk below
the stale cursor 5. -/
theorem C9_getCurrentField_safe_witness :
    (getCurrentField c9State = none ↔
      c9State.currentFieldIndex < 0 ∨
        (c9State.fields.length : Int) ≤ c9State.currentFieldIndex) ∧
    (0 ≤ c9State.currentFieldIndex →
      getCurrentField c9State = c9State.fields.get? c9State.currentFieldIndex.toNat) :=
  C9_getCurrentField_safe c9State

/-! ## Claim C8 -/

/-- C8: `fillCurrentField` returns `false` exactly when there is no current
field (cursor negative or out of range), and then changes nothing and
dispatches nothing; when the current field is native (and its element, like
every native form control, has a `value` property) it writes the value to
the element, updates the cached snapshot, dispatches a bubbling `input` and
a bubbling `change` event, and returns `true`. -/
theorem C8_fillCurrentField_contract (s : DetectorState) (x : String) :
    ((fillCurrentField s x).1 = false ↔
      s.currentFieldIndex < 0 ∨ (s.fields.length : Int) ≤ s.currentFieldIndex) ∧
    (getCurrentField s = none → fillCurrentField s x = (false, s, [])) ∧
    (∀ f, getCurrentField s = some f → f.isAria = false → f.elem.hasValue = true →
      (fillCurrentField s x).1 = true ∧
      (getCurrentField (fillCurrentField s x).2.1).map (fun g => g.elem.value) = some x ∧
      (getCurrentField (fillCurrentField s x).2.1).map (fun g => g.value) = some x ∧
      (fillCurrentField s x).2.2 =
        [{ name := "input", bubbles := true }, { name := "change", bubbles := true }]) := by
  refine ⟨?_, fill_of_none s x, ?_⟩
  · rw [← getCurrentField_none_iff]
    cases h : getCurrentField s with
    | none => simp [fill_of_none s x h]
    | some f => simp [fill_of_some s x f h]
  · intro f hf h1 h2
    obtain ⟨hv0, hv1, _⟩ := getCurrentField_valid s f hf
    rw [fill_of_some s x f hf]
    refine ⟨rfl, ?_, ?_, rfl⟩
    · show (getCurrentField
        { s with fields := s.fields.set s.currentFieldIndex.toNat (fillFieldUpdate x f) }).map
          (fun g => g.elem.value) = some x
      rw [getCurrentField_set_current s _ hv0 hv1, fillFieldUpdate_native x f h1 h2]
      rfl
    · show (getCurrentField
        { s with fields := s.fields.set s.currentFieldIndex.toNat (fillFieldUpdate x f) }).map
          (fun g => g.value) = some x
      rw [getCurrentField_set_current s _ hv0 hv1, fillFieldUpdate_native x f h1 h2]
      rfl

/-- Witness for C8: filling the single native field of `c8State`. -/
theorem C8_fillCurrentField_contract_witness :
    (fillCurrentField c8State "hello").1 = true ∧
    (getCurrentField (fillCurrentField c8State "hello").2.1).map (fun g => g.elem.value) =
      some "hello" ∧
    (getCurrentField (fillCurrentField c8State "hello").2.1).map (fun g => g.value) =
      some "hello" ∧
    (fillCurrentField c8State "hello").2.2 =
      [{ name := "input", bubbles := true }, { name := "change", bubbles := true }] :=
  (C8_fillCurrentField_contract c8State "hello").2.2 (sampleTextField "")
    (by decide) (by decide) (by decide)

/-! ## Claim C10 -/

/-- C10 counterexample: in `c10State` the current grouped radio field has
one member, labelled `"Yes"` and currently checked, and a cached value
`"Yes"`.  Filling with `""` — a value matching no member's option text —
returns `true`, unchecks every member, and stores `""` as the cached value:
the claim's conclusion that the cached `currentValue` is then non-empty is
false. -/
theorem C10_counterexample :
    (fillCurrentField c10State "").1 = true ∧
    (getCurrentField (fillCurrentField c10State "").2.1).bind (fun g => g.ariaElements) =
      some [{ ariaLabel := some "Yes", textContent := "", firstSpanText := none,
              ariaChecked := false }] ∧
    (getCurrentField (fillCurrentField c10State "").2.1).map (fun g => g.value) = some "" := by
  decide

/-- C10 amended: for a current grouped ARIA radio field, filling with a
value `v` that matches none of the members' option texts still returns
`true`, sets `aria-checked` to false on every member (clearing any
previously checked option), and stores `v` as the cached value — so for
non-empty `v` the cached `currentValue` is non-empty while no member of the
group is checked. -/
theorem C10_amended (s : DetectorState) (v : String) (f : FormField) (ms : List AriaMember)
    (hf : getCurrentField s = some f) (h1 : f.isAria = true)
    (ht : f.type = FieldType.radio) (hm : f.ariaElements = some ms)
    (hv : ∀ m ∈ ms, fillOptionLabel m ≠ v) :
    (fillCurrentField s v).1 = true ∧
    (getCurrentField (fillCurrentField s v).2.1).bind (fun g => g.ariaElements) =
      some (ms.map (fun m => { m with ariaChecked := false })) ∧
    (∀ ms2,
      (getCurrentField (fillCurrentField s v).2.1).bind (fun g => g.ariaElements) = some ms2 →
      ∀ m ∈ ms2, m.ariaChecked = false) ∧
    (getCurrentField (fillCurrentField s v).2.1).map (fun g => g.value) = some v ∧
    (v ≠ "" → (getCurrentField (fillCurrentField s v).2.1).map (fun g => g.value) ≠ some "") := by
  obtain ⟨hv0, hv1, _⟩ := getCurrentField_valid s f hf
  have hmap : ms.map (fillRadioMember v) = ms.map (fun m => { m with ariaChecked := false }) := by
    apply List.map_congr_left
    intro m hm2
    unfold fillRadioMember
    rw [if_neg (hv m hm2)]
  rw [fill_of_some s v f hf]
  have hcur : getCurrentField
      { s with fields := s.fields.set s.currentFieldIndex.toNat (fillFieldUpdate v f) } =
      some (fillFieldUpdate v f) := getCurrentField_set_current s _ hv0 hv1
  refine ⟨rfl, ?_, ?_, ?_, ?_⟩
  · show (getCurrentField _).bind (fun g => g.ariaElements) = _
    rw [hcur, fillFieldUpdate_radio v f ms h1 ht hm]
    simpa using hmap
  · intro ms2 hms2 m hmem
    rw [hcur, fillFieldUpdate_radio v f ms h1 ht hm] at hms2
    have : ms2 = ms.map (fillRadioMember v) := by
      simpa using hms2.symm
    subst this
    rw [hmap] at hmem
    obtain ⟨m0, _, rfl⟩ := List.mem_map.mp hmem
    rfl
  · show (getCurrentField _).map (fun g => g.value) = some v
    rw [hcur, fillFieldUpdate_radio v f ms h1 ht hm]
    rfl
  · intro hne
    show (getCurrentField _).map (fun g => g.value) ≠ some ""
    rw [hcur, fillFieldUpdate_radio v f ms h1 ht hm]
    simpa using hne

/-! ## Claim C5 -/

/-- The option labels of the currently checked members of a group. -/
def checkedLabels (ms : List AriaMember) : List String :=
  (ms.filter (fun m => m.ariaChecked)).map fillOptionLabel

def listInter (a b : List String) : List String := a.filter (fun s => b.contains s)

/-- Set equality of two string lists, as a boolean. -/
def sameSetB (a b : List String) : Bool :=
  a.all (fun s => b.contains s) && b.all (fun s => a.contains s)

theorem containsB_iff (l : List String) (s : String) : l.contains s = true ↔ s ∈ l := by
  show List.elem s l = true ↔ s ∈ l
  exact List.elem_iff

theorem sameSetB_iff (a b : List String) :
    sameSetB a b = true ↔ (∀ s ∈ a, s ∈ b) ∧ (∀ s ∈ b, s ∈ a) := by
  unfold sameSetB
  rw [Bool.and_eq_true, List.all_eq_true, List.all_eq_true]
  constructor
  · intro ⟨h1, h2⟩
    exact ⟨fun s hs => (containsB_iff b s).mp (h1 s hs),
           fun s hs => (containsB_iff a s).mp (h2 s hs)⟩
  · intro ⟨h1, h2⟩
    exact ⟨fun s hs => (containsB_iff b s).mpr (h1 s hs),
           fun s hs => (containsB_iff a s).mpr (h2 s hs)⟩

theorem mem_listInter (a b : List String) (s : String) :
    s ∈ listInter a b ↔ s ∈ a ∧ s ∈ b := by
  unfold listInter
  rw [List.mem_filter, containsB_iff]

theorem fillCheckboxMember_checked (x : String) (m : AriaMember) :
    (fillCheckboxMember x m).ariaChecked = (splitTrim x).contains (fillOptionLabel m) := by
  unfold fillCheckboxMember
  split <;> simp_all

theorem fillCheckboxMember_label (x : String) (m : AriaMember) :
    fillOptionLabel (fillCheckboxMember x m) = fillOptionLabel m := by
  unfold fillCheckboxMember
  split <;> rfl

theorem mem_checkedLabels_fill (x : String) (ms : List AriaMember) (s : String) :
    s ∈ checkedLabels (ms.map (fillCheckboxMember x)) ↔
      s ∈ splitTrim x ∧ s ∈ ms.map fillOptionLabel := by
  unfold checkedLabels
  constructor
  · intro hs
    obtain ⟨m', hm', rfl⟩ := List.mem_map.mp hs
    obtain ⟨hmem, hchk⟩ := List.mem_filter.mp hm'
    obtain ⟨m0, hm0, rfl⟩ := List.mem_map.mp hmem
    rw [fillCheckboxMember_checked] at hchk
    rw [fillCheckboxMember_label]
    exact ⟨(containsB_iff _ _).mp hchk, List.mem_map.mpr ⟨m0, hm0, rfl⟩⟩
  · intro ⟨hit, hlab⟩
    obtain ⟨m0, hm0, rfl⟩ := List.mem_map.mp hlab
    refine List.mem_map.mpr ⟨fillCheckboxMember x m0, ?_, fillCheckboxMember_label x m0⟩
    refine List.mem_filter.mpr ⟨List.mem_map.mpr ⟨m0, hm0, rfl⟩, ?_⟩
    rw [fillCheckboxMember_checked]
    exact (containsB_iff _ _).mpr hit

theorem checkedLabels_inter (x : String) (ms : List AriaMember) :
    sameSetB (checkedLabels (ms.map (fillCheckboxMember x)))
      (listInter (splitTrim x) (ms.map fillOptionLabel)) = true := by
  rw [sameSetB_iff]
  constructor
  · intro s hs
    exact (mem_listInter _ _ _).mpr ((mem_checkedLabels_fill x ms s).mp hs)
  · intro s hs
    exact (mem_checkedLabels_fill x ms s).mpr ((mem_listInter _ _ _).mp hs)

theorem checkedLabels_of_subset (x : String) (ms : List AriaMember)
    (hsub : ∀ it ∈ splitTrim x, it ∈ ms.map fillOptionLabel) :
    sameSetB (checkedLabels (ms.map (fillCheckboxMember x))) (splitTrim x) = true := by
  rw [sameSetB_iff]
  constructor
  · intro s hs
    exact ((mem_checkedLabels_fill x ms s).mp hs).1
  · intro s hs
    exact (mem_checkedLabels_fill x ms s).mpr ⟨hs, hsub s hs⟩

def c5Member : AriaMember :=
  { ariaLabel := some "A", textContent := "", firstSpanText := none, ariaChecked := false }

def c5Field : FormField :=
  { elem := { hasValue := false, value := "", checked := false }
    type := FieldType.checkbox
    label := "G"
    placeholder := none
    required := false
    value := ""
    id := "g5"
    isAria := true
    ariaElements := some [c5Member]
    options := some ["A"] }

def c5State : DetectorState := { fields := [c5Field], currentFieldIndex := 0 }

/-- C5 counterexample: the current grouped checkbox field has a single
option `"A"`; filling with `"A, C"` caches `"A, C"`, whose comma-split,
trimmed set is `{"A", "C"}`, while the fill checks only the member `"A"` —
so the cached value's comma-split set differs from the set of options
actually checked by the fill, contradicting the claimed round trip. -/
theorem C5_counterexample :
    (getCurrentField (fillCurrentField c5State "A, C").2.1).map (fun g => g.value) =
      some "A, C" ∧
    ((getCurrentField (fillCurrentField c5State "A, C").2.1).bind
        (fun g => g.ariaElements)).map
      (fun ms2 => sameSetB (splitTrim "A, C") (checkedLabels ms2)) = some false := by
  decide

/-- C5 amended: after `fillCurrentField x`, reading the current field's
cached `currentValue` yields `x` itself for native fields (whose elements
carry a `value` property), and for grouped ARIA checkbox fields also yields
`x`, while the set of options actually checked by the fill equals the
comma-split, trimmed set of `x` intersected with the members' option
labels; the two sets coincide exactly when every split item of `x` matches
some member's option label. -/
theorem C5_amended (s : DetectorState) (x : String) (f : FormField)
    (hf : getCurrentField s = some f) :
    (f.isAria = false → f.elem.hasValue = true →
      (getCurrentField (fillCurrentField s x).2.1).map (fun g => g.value) = some x) ∧
    (∀ ms, f.isAria = true → f.type = FieldType.checkbox → f.ariaElements = some ms →
      (getCurrentField (fillCurrentField s x).2.1).map (fun g => g.value) = some x ∧
      (getCurrentField (fillCurrentField s x).2.1).bind (fun g => g.ariaElements) =
        some (ms.map (fillCheckboxMember x)) ∧
      sameSetB (checkedLabels (ms.map (fillCheckboxMember x)))
        (listInter (splitTrim x) (ms.map fillOptionLabel)) = true ∧
      ((∀ it ∈ splitTrim x, it ∈ ms.map fillOptionLabel) →
        sameSetB (checkedLabels (ms.map (fillCheckboxMember x))) (splitTrim x) = true)) := by
  obtain ⟨hv0, hv1, _⟩ := getCurrentField_valid s f hf
  rw [fill_of_some s x f hf]
  have hcur : getCurrentField
      { s with fields := s.fields.set s.currentFieldIndex.toNat (fillFieldUpdate x f) } =
      some (fillFieldUpdate x f) := getCurrentField_set_current s _ hv0 hv1
  constructor
  · intro h1 h2
    show (getCurrentField _).map (fun g => g.value) = some x
    rw [hcur, fillFieldUpdate_native x f h1 h2]
    rfl
  · intro ms h1 ht hm
    refine ⟨?_, ?_, checkedLabels_inter x ms, checkedLabels_of_subset x ms⟩
    · show (getCurrentField _).map (fun g => g.value) = some x
      rw [hcur, fillFieldUpdate_checkbox x f ms h1 ht hm]
      rfl
    · show (getCurrentField _).bind (fun g => g.ariaElements) = _
      rw [hcur, fillFieldUpdate_checkbox x f ms h1 ht hm]
      rfl

/-- Witness for C5 at `c5State`, filling the matching value `"A"`. -/
theorem C5_amended_witness :
    (getCurrentField (fillCurrentField c5State "A").2.1).map (fun g => g.value) = some "A" ∧
    (getCurrentField (fillCurrentField c5State "A").2.1).bind (fun g => g.ariaElements) =
      some ([c5Member].map (fillCheckboxMember "A")) ∧
    sameSetB (checkedLabels ([c5Member].map (fillCheckboxMember "A")))
      (listInter (splitTrim "A") ([c5Member].map fillOptionLabel)) = true ∧
    ((∀ it ∈ splitTrim "A", it ∈ [c5Member].map fillOptionLabel) →
      sameSetB (checkedLabels ([c5Member].map (fillCheckboxMember "A"))) (splitTrim "A") =
        true) :=
  (C5_amended c5State "A" c5Field (by decide)).2 [c5Member] (by decide) (by decide) (by decide)

/-! ## Claim C6 -/

/-- Iterated `nextField`, following only the state. -/
def iterNext : Nat → DetectorState → DetectorState
  | 0, s => s
  | n + 1, s => iterNext n (nextField s).2

/-- Iterated `previousField`, following only the state. -/
def iterPrev : Nat → DetectorState → DetectorState
  | 0, s => s
  | n + 1, s => iterPrev n (previousField s).2

theorem nextField_state (s : DetectorState) (h : s.fields ≠ []) :
    (nextField s).2 =
      { s with currentFieldIndex := jsRem (s.currentFieldIndex + 1) (s.fields.length : Int) } := by
  unfold nextField
  rw [if_neg (by simpa [List.length_eq_zero] using h)]

theorem prevField_state (s : DetectorState) (h : s.fields ≠ []) :
    (previousField s).2 =
      { s with currentFieldIndex :=
          if s.currentFieldIndex ≤ 0 then (s.fields.length : Int) - 1
          else s.currentFieldIndex - 1 } := by
  unfold previousField
  rw [if_neg (by simpa [List.length_eq_zero] using h)]

theorem emod_shift_add (a k N : Int) : (a % N + k) % N = (a + k) % N := by
  conv_rhs => rw [Int.add_emod]
  rw [Int.add_emod (a % N) k, Int.emod_emod_of_dvd _ dvd_rfl]

theorem emod_shift_sub (a k N : Int) : (a % N - k) % N = (a - k) % N := by
  conv_rhs => rw [Int.sub_emod]
  rw [Int.sub_emod (a % N) k, Int.emod_emod_of_dvd _ dvd_rfl]

theorem iterNext_cursor (n : Nat) :
    ∀ s : DetectorState, s.fields ≠ [] →
      0 ≤ s.currentFieldIndex → s.currentFieldIndex < (s.fields.length : Int) →
      (iterNext n s).fields = s.fields ∧
      (iterNext n s).currentFieldIndex =
        (s.currentFieldIndex + (n : Int)) % (s.fields.length : Int) := by
  induction n with
  | zero =>
    intro s _ hl hu
    exact ⟨rfl, by simpa using (Int.emod_eq_of_lt hl hu).symm⟩
  | succ k ih =>
    intro s h hl hu
    have hNpos : 0 < s.fields.length := List.length_pos.mpr h
    have hrem : jsRem (s.currentFieldIndex + 1) (s.fields.length : Int) =
        (s.currentFieldIndex + 1) % (s.fields.length : Int) :=
      Int.tmod_eq_emod (by omega) (by omega)
    have hstep : iterNext (k + 1) s =
        iterNext k { s with currentFieldIndex :=
          (s.currentFieldIndex + 1) % (s.fields.length : Int) } := by
      show iterNext k (nextField s).2 = _
      rw [nextField_state s h, hrem]
    rw [hstep]
    obtain ⟨hf, hc⟩ := ih
      { s with currentFieldIndex := (s.currentFieldIndex + 1) % (s.fields.length : Int) }
      h (Int.emod_nonneg _ (by omega)) (Int.emod_lt_of_pos _ (by omega))
    refine ⟨hf, ?_⟩
    rw [hc]
    show ((s.currentFieldIndex + 1) % (s.fields.length : Int) + (k : Int)) %
        (s.fields.length : Int) = _
    rw [emod_shift_add]
    congr 1
    push_cast
    ring

theorem iterPrev_cursor (n : Nat) :
    ∀ s : DetectorState, s.fields ≠ [] →
      0 ≤ s.currentFieldIndex → s.currentFieldIndex < (s.fields.length : Int) →
      (iterPrev n s).fields = s.fields ∧
      (iterPrev n s).currentFieldIndex =
        (s.currentFieldIndex - (n : Int)) % (s.fields.length : Int) := by
  induction n with
  | zero =>
    intro s _ hl hu
    exact ⟨rfl, by simpa using (Int.emod_eq_of_lt hl hu).symm⟩
  | succ k ih =>
    intro s h hl hu
    have hNpos : 0 < s.fields.length := List.length_pos.mpr h
    have hstepc : (if s.currentFieldIndex ≤ 0 then (s.fields.length : Int) - 1
        else s.currentFieldIndex - 1) =
        (s.currentFieldIndex - 1) % (s.fields.length : Int) := by
      by_cases hc0 : s.currentFieldIndex ≤ 0
      · rw [if_pos hc0]
        have hz : s.currentFieldIndex = 0 := by omega
        rw [hz]
        have : ((0 : Int) - 1) % (s.fields.length : Int) =
            (((s.fields.length : Int) - 1) + (s.fields.length : Int) * (-1)) %
              (s.fields.length : Int) := by
          congr 1
          ring
        rw [this, Int.add_mul_emod_self_left, Int.emod_eq_of_lt (by omega) (by omega)]
      · rw [if_neg hc0]
        exact (Int.emod_eq_of_lt (by omega) (by omega)).symm
    have hstep : iterPrev (k + 1) s =
        iterPrev k { s with currentFieldIndex :=
          (s.currentFieldIndex - 1) % (s.fields.length : Int) } := by
      show iterPrev k (previousField s).2 = _
      rw [prevField_state s h, hstepc]
    rw [hstep]
    obtain ⟨hf, hc⟩ := ih
      { s with currentFieldIndex := (s.currentFieldIndex - 1) % (s.fields.length : Int) }
      h (Int.emod_nonneg _ (by omega)) (Int.emod_lt_of_pos _ (by omega))
    refine ⟨hf, ?_⟩
    rw [hc]
    show ((s.currentFieldIndex - 1) % (s.fields.length : Int) - (k : Int)) %
        (s.fields.length : Int) = _
    rw [emod_shift_sub]
    congr 1
    push_cast
    ring

/-- C6 counterexample: from the reachable initial state with two fields and
cursor `-1` (no current field), two `previousField` calls land the cursor on
position `0`, not at the original position mod 2 (which is `1`): the
claimed `previousField` circularity fails for the starting cursor `-1`. -/
theorem C6_counterexample :
    (iterPrev 2 c6State).currentFieldIndex ≠
      c6State.currentFieldIndex % (c6State.fields.length : Int) ∧
    (iterPrev 2 c6State).currentFieldIndex = 0 ∧
    c6State.currentFieldIndex % (c6State.fields.length : Int) = 1 := by
  decide

/-- C6 amended: on an empty field list both operations return `null` and
leave the state unchanged; for `N ≥ 1` fields, `N` calls of `nextField`
return the cursor to the original position mod `N` from every reachable
starting cursor (any cursor `≥ -1`); `N` calls of `previousField` return
the cursor to the original position provided the starting cursor is a valid
field position `0 ≤ cursor < N` (from cursor `-1` they land on `0`
instead, as the counterexample shows). -/
theorem C6_amended (s : DetectorState) :
    (s.fields = [] → nextField s = (none, s) ∧ previousField s = (none, s)) ∧
    (s.fields ≠ [] → -1 ≤ s.currentFieldIndex →
      (iterNext s.fields.length s).fields = s.fields ∧
      (iterNext s.fields.length s).currentFieldIndex =
        s.currentFieldIndex % (s.fields.length : Int)) ∧
    (s.fields ≠ [] → 0 ≤ s.currentFieldIndex →
      s.currentFieldIndex < (s.fields.length : Int) →
      (iterPrev s.fields.length s).fields = s.fields ∧
      (iterPrev s.fields.length s).currentFieldIndex = s.currentFieldIndex) := by
  refine ⟨?_, ?_, ?_⟩
  · intro he
    constructor <;> [unfold nextField; unfold previousField] <;>
      rw [if_pos (by simp [he])]
  · intro h hm1
    have hNpos : 0 < s.fields.length := List.length_pos.mpr h
    obtain ⟨m, hm⟩ := Nat.exists_eq_succ_of_ne_zero (by omega : s.fields.length ≠ 0)
    have hrem : jsRem (s.currentFieldIndex + 1) (s.fields.length : Int) =
        (s.currentFieldIndex + 1) % (s.fields.length : Int) :=
      Int.tmod_eq_emod (by omega) (by omega)
    have hstep : iterNext s.fields.length s =
        iterNext m { s with currentFieldIndex :=
          (s.currentFieldIndex + 1) % (s.fields.length : Int) } := by
      conv_lhs => rw [hm]
      show iterNext m (nextField s).2 = _
      rw [nextField_state s h, hrem]
    rw [hstep]
    obtain ⟨hf, hc⟩ := iterNext_cursor m
      { s with currentFieldIndex := (s.currentFieldIndex + 1) % (s.fields.length : Int) }
      h (Int.emod_nonneg _ (by omega)) (Int.emod_lt_of_pos _ (by omega))
    refine ⟨hf, ?_⟩
    rw [hc]
    show ((s.currentFieldIndex + 1) % (s.fields.length : Int) + (m : Int)) %
        (s.fields.length : Int) = _
    rw [emod_shift_add]
    have hcN : s.currentFieldIndex + 1 + (m : Int) =
        s.currentFieldIndex + (s.fields.length : Int) * 1 := by
      rw [hm]
      push_cast
      ring
    rw [hcN, Int.add_mul_emod_self_left]
  · intro h hl hu
    obtain ⟨hf, hc⟩ := iterPrev_cursor s.fields.length s h hl hu
    refine ⟨hf, ?_⟩
    rw [hc]
    have : s.currentFieldIndex - (s.fields.length : Int) =
        s.currentFieldIndex + (s.fields.length : Int) * (-1) := by ring
    rw [this, Int.add_mul_emod_self_left, Int.emod_eq_of_lt hl hu]

/-- Witness for C6 at a two-field state with cursor `0`: two `nextField`
calls and two `previousField` calls each return to position `0`. -/
theorem C6_amended_witness :
    (iterNext 2 c6wState).currentFieldIndex = 0 ∧
    (iterPrev 2 c6wState).currentFieldIndex = 0 := by
  have h := C6_amended c6wState
  constructor
  · have h2 := h.2.1 (by decide) (by decide)
    simpa using h2.2
  · exact (h.2.2 (by decide) (by decide) (by decide)).2

/-! ## Claim C2 -/

theorem countP_and_eq_iff (l : List FormField) (p q : FormField → Bool) :
    (l.countP (fun f => p f && q f) = l.countP p) ↔
      ∀ f ∈ l, p f = true → q f = true := by
  induction l with
  | nil => simp
  | cons a t ih =>
    have hle : t.countP (fun f => p f && q f) ≤ t.countP p := by
      apply List.countP_mono_left
      intro f _ hf
      rw [Bool.and_eq_true] at hf
      exact hf.1
    rw [List.countP_cons, List.countP_cons]
    by_cases hp : p a = true
    · by_cases hq : q a = true
      · simp [hp, hq, List.forall_mem_cons, ih]
      · simp [hp, hq, List.forall_mem_cons]
        omega
    · simp [hp, List.forall_mem_cons, ih]

def c2CexFields : List FormField :=
  List.replicate 57 (sampleTextField "x") ++ List.replicate 143 (sampleTextField "")

section
set_option maxRecDepth 100000

/-- C2 counterexample: on a field list with 57 of 200 fields filled,
`getFormState` reports `completionPercentage = 28` — the binary64 value of
`(57/200)*100` is just below `28.5`, so `Math.round` rounds down — while
the claimed exact formula `round(100*57/200)` gives `29`. -/
theorem C2_counterexample :
    (getFormState c2CexFields).totalFields = 200 ∧
    (getFormState c2CexFields).filledFields = 57 ∧
    (getFormState c2CexFields).completionPercentage = 28 ∧
    specRoundPct 57 200 = 29 ∧
    (getFormState c2CexFields).completionPercentage ≠
      specRoundPct (getFormState c2CexFields).filledFields
        (getFormState c2CexFields).totalFields := by
  decide

end

/-- C2 amended: `getFormState` returns `completionPercentage = 0` when
there are no fields, and otherwise the binary64 evaluation of
`Math.round((filledFields/totalFields)*100)` — which can differ by one from
the exact `round(100*filledFields/totalFields)` (e.g. 57 of 200 filled
gives 28, not 29); `isComplete` is true iff all required fields are filled
when at least one field is required, else iff all fields are filled (hence
true for zero fields). -/
theorem C2_amended (fields : List FormField) :
    ((getFormState fields).totalFields = 0 → (getFormState fields).completionPercentage = 0) ∧
    (0 < (getFormState fields).totalFields →
      (getFormState fields).completionPercentage =
        jsPercentage (getFormState fields).filledFields (getFormState fields).totalFields) ∧
    ((getFormState fields).isComplete = true ↔
      (if 0 < (getFormState fields).requiredFields then
        ∀ f ∈ fields, f.required = true → fillPredicate f = true
      else ∀ f ∈ fields, fillPredicate f = true)) := by
  unfold getFormState
  simp only []
  refine ⟨?_, ?_, ?_⟩
  · intro h0
    rw [if_neg (by omega)]
  · intro hpos
    rw [if_pos hpos]
  · by_cases hreq : 0 < (fields.filter (fun f => f.required)).length
    · rw [if_pos hreq, if_pos hreq, beq_iff_eq, ← List.countP_eq_length_filter,
        ← List.countP_eq_length_filter]
      exact countP_and_eq_iff fields _ _
    · rw [if_neg hreq, if_neg hreq, beq_iff_eq, ← List.countP_eq_length_filter]
      exact List.countP_eq_length

def c2wFields : List FormField :=
  [{ sampleTextField "a" with required := true },
   { sampleTextField "" with required := true },
   sampleTextField "b"]

/-- Witness for C2 at the spec's literal scenario (3 fields, 2 required,
one required field empty): `isComplete` is false, exactly one required
field counts as filled, and the percentage is the binary64 rounding of
`(2/3)*100`, namely 67. -/
theorem C2_amended_witness :
    (getFormState c2wFields).isComplete = false ∧
    (getFormState c2wFields).requiredFilledFields = 1 ∧
    (getFormState c2wFields).completionPercentage = 67 := by
  have h := (C2_amended c2wFields).2.2
  refine ⟨?_, by decide, by decide⟩
  have hP : ¬ (if 0 < (getFormState c2wFields).requiredFields then
      ∀ f ∈ c2wFields, f.required = true → fillPredicate f = true
    else ∀ f ∈ c2wFields, fillPredicate f = true) := by decide
  cases hic : (getFormState c2wFields).isComplete
  · rfl
  · exact absurd (h.mp hic) hP

/-- Witness for C10 at `c10State`, filling the non-matching value `"No"`. -/
theorem C10_amended_witness :
    (fillCurrentField c10State "No").1 = true ∧
    (getCurrentField (fillCurrentField c10State "No").2.1).bind (fun g => g.ariaElements) =
      some ([c10Member].map (fun m => { m with ariaChecked := false })) ∧
    (∀ ms2,
      (getCurrentField (fillCurrentField c10State "No").2.1).bind (fun g => g.ariaElements) =
        some ms2 → ∀ m ∈ ms2, m.ariaChecked = false) ∧
    (getCurrentField (fillCurrentField c10State "No").2.1).map (fun g => g.value) = some "No" ∧
    ("No" ≠ "" →
      (getCurrentField (fillCurrentField c10State "No").2.1).map (fun g => g.value) ≠ some "") :=
  C10_amended c10State "No" c10Field [c10Member] (by decide) (by decide) (by decide)
    (by decide) (by decide)

/-! ## Claim C1 -/

def c1CompanyDoc : Node :=
  .elem "body" [] [.elem "input" [("type", "text"), ("name", "company_name")] []]

def c1GivenNameDoc : Node :=
  .elem "body" [] [.elem "input" [("type", "text"), ("autocomplete", "given-name")] []]

def c1EmailDoc : Node :=
  .elem "body" []
    [.elem "input"
      [("type", "email"), ("name", "company_name"), ("placeholder", "Your company"),
       ("aria-label", "Company")] []]

/-- C1 counterexample: `<input type="text" name="company_name">` is NOT
classified as `company`.  The name-attribute label fallback turns
`company_name` into the label `company name`, and the generic name-keyword
pattern (`\b(full[\s-]?name|your[\s-]?name|name)\b`) fires before the
company keyword check in `detectFieldType`'s cascade. -/
theorem C1_counterexample : detectFieldType c1CompanyDoc [0] ≠ FieldType.company := by
  decide

/-- C1 amended: `<input type="text" name="company_name">` is classified as
kind `name` (the generic name keyword matches before the company keyword);
`<input type="text" autocomplete="given-name">` is classified `firstName`;
and any `<input type="email">` is classified `email` regardless of its
other attributes, surrounding document, or resolved label. -/
theorem C1_amended :
    detectFieldType c1CompanyDoc [0] = FieldType.name ∧
    detectFieldType c1GivenNameDoc [0] = FieldType.firstName ∧
    (∀ (doc : Node) (p : Path), tagAt doc p = "input" → attrAt doc p "type" = some "email" →
      detectFieldType doc p = FieldType.email) := by
  refine ⟨by decide, by decide, ?_⟩
  intro doc p htag hty
  have hprop : jsLower (elemTypeProp doc p) = "email" := by
    unfold elemTypeProp inputTypeProp
    rw [htag, hty]
    rfl
  unfold detectFieldType
  rw [htag, hprop]
  rfl

/-- Witness for C1's universal part: an email input carrying company-themed
name, placeholder and aria-label still classifies as `email`. -/
theorem C1_amended_witness : detectFieldType c1EmailDoc [0] = FieldType.email :=
  C1_amended.2.2 c1EmailDoc [0] (by decide) (by decide)

/-! ## Claim C3 -/

def c3CexDoc : Node :=
  .elem "body" []
    [.elem "input" [("type", "hidden")] [], .elem "input" [("type", "text")] []]

/-- C3 counterexample: after a hidden input (skipped by the detector), the
only detected field sits at position 0 of the combined field list, yet its
synthesized id is `hiya-field-1` — the element's position in the raw
native-control scan — not the `hiya-field-0` the claim's field-list index
would give. -/
theorem C3_counterexample :
    (detectForms c3CexDoc).fields.map (fun f => f.id) = ["hiya-field-1"] ∧
    (detectForms c3CexDoc).fields.map (fun f => f.id) ≠ ["hiya-field-0"] := by
  decide

/-- C3 amended: every detected native field's id is the element's own `id`
attribute when non-empty, and otherwise `hiya-field-{i}` where `i` is the
element's position in the document-order scan of native controls — an index
that also counts controls skipped as hidden/disabled/display-none, so it
equals the field's position in the combined field list only when nothing
was skipped. -/
theorem C3_amended (doc : Node) (i : Nat) (p : Path) (f : FormField)
    (h1 : (nativeControlPaths doc).get? i = some p)
    (h2 : createFormField doc p i = some f) :
    f ∈ (detectForms doc).fields ∧
    f.id = (if idAt doc p ≠ "" then idAt doc p else "hiya-field-" ++ toString i) := by
  constructor
  · show f ∈ nativeFieldsOf doc ++ (radioStage doc).1 ++ checkboxStage doc
    apply List.mem_append.mpr
    left
    apply List.mem_append.mpr
    left
    unfold nativeFieldsOf
    apply List.mem_filterMap.mpr
    refine ⟨(i, p), ?_, h2⟩
    apply List.get?_mem
    rw [List.get?_enum, h1]
    rfl
  · unfold createFormField at h2
    split at h2
    · exact absurd h2 (by simp)
    · injection h2 with hf
      rw [← hf]
      show jsOr (idAt doc p) ("hiya-field-" ++ toString i) = _
      exact jsOr_eq_ite _ _

def c3wDoc : Node :=
  .elem "body" [] [.elem "input" [("type", "text")] [], .elem "input" [("type", "text")] []]

def c3wField : FormField :=
  { elem := { hasValue := true, value := "", checked := false }
    type := FieldType.text
    label := "Unlabeled field"
    placeholder := none
    required := false
    value := ""
    id := "hiya-field-1"
    isAria := false
    ariaElements := none
    options := none }

/-- Witness for C3 at a document with two plain inputs: the second scanned
control (index 1) yields the field with id `hiya-field-1`. -/
theorem C3_amended_witness :
    c3wField ∈ (detectForms c3wDoc).fields ∧
    c3wField.id =
      (if idAt c3wDoc [1] ≠ "" then idAt c3wDoc [1] else "hiya-field-" ++ toString 1) :=
  C3_amended c3wDoc 1 [1] c3wField (by decide) (by decide)

/-! ## Claim C4 -/

theorem extractLabel_shape (doc : Node) (p : Path) :
    extractLabel doc p = "Unlabeled field" ∨ ∃ t, extractLabel doc p = cleanLabel t := by
  unfold extractLabel
  cases labelCandidate doc p with
  | none => exact Or.inl rfl
  | some t => exact Or.inr ⟨t, rfl⟩

theorem ariaGroupLabel_ne (doc : Node) (g : Path) (dflt : String) (hd : dflt ≠ "") :
    ariaGroupLabel doc g dflt ≠ "" := by
  unfold ariaGroupLabel
  dsimp only
  repeat' split
  all_goals first
    | exact hd
    | exact jsOr_ne_empty _ _ hd
    | assumption

theorem ariaRadioLabelOf_ne (doc : Node) (e0 : Path) : ariaRadioLabelOf doc e0 ≠ "" := by
  unfold ariaRadioLabelOf
  split
  · exact ariaGroupLabel_ne _ _ _ (by decide)
  · dsimp only
    split
    · assumption
    · decide

theorem ariaCheckboxLabelOf_ne (doc : Node) (e0 : Path) : ariaCheckboxLabelOf doc e0 ≠ "" := by
  unfold ariaCheckboxLabelOf
  split
  · exact ariaGroupLabel_ne _ _ _ (by decide)
  · dsimp only
    split
    · assumption
    · decide

theorem mem_buildGroupFields (create : List Path → Nat → Option FormField) :
    ∀ (gs : List (List Path)) (i : Nat) (f : FormField),
      f ∈ (buildGroupFields create gs i).1 → ∃ g j, create g j = some f := by
  intro gs
  induction gs with
  | nil =>
    intro i f h
    simp [buildGroupFields] at h
  | cons g t ih =>
    intro i f h
    unfold buildGroupFields at h
    cases hc : create g i with
    | some f0 =>
      rw [hc] at h
      simp only [] at h
      rcases List.mem_cons.mp h with h | h
      · exact ⟨g, i, by rw [hc, h]⟩
      · exact ih (i + 1) f h
    | none =>
      rw [hc] at h
      exact ih i f h

theorem createAriaRadioField_inv (doc : Node) (g : List Path) (i : Nat) (f : FormField)
    (h : createAriaRadioField doc g i = some f) :
    f.isAria = true ∧ f.label ≠ "" := by
  cases g with
  | nil => simp [createAriaRadioField] at h
  | cons e0 rest =>
    simp only [createAriaRadioField] at h
    split at h
    · exact absurd h (by simp)
    · injection h with hf
      refine ⟨by rw [← hf], ?_⟩
      rw [← hf]
      exact ariaRadioLabelOf_ne doc e0

theorem createAriaCheckboxField_inv (doc : Node) (g : List Path) (i : Nat) (f : FormField)
    (h : createAriaCheckboxField doc g i = some f) :
    f.isAria = true ∧ f.label ≠ "" := by
  cases g with
  | nil => simp [createAriaCheckboxField] at h
  | cons e0 rest =>
    simp only [createAriaCheckboxField] at h
    split at h
    · exact absurd h (by simp)
    · injection h with hf
      refine ⟨by rw [← hf], ?_⟩
      rw [← hf]
      exact ariaCheckboxLabelOf_ne doc e0

def c4CexDoc : Node :=
  .elem "body" [] [.elem "input" [("type", "text"), ("aria-label", ":")] []]

/-- C4 counterexample: an input whose `aria-label` is `":"` is scanned into
a field whose resolved label is the empty string — the aria-label heuristic
wins with the raw candidate `":"`, and `cleanLabel` strips the trailing
colon, leaving nothing.  This contradicts the claimed non-emptiness of
every resolved label. -/
theorem C4_counterexample :
    (detectForms c4CexDoc).fields.map (fun f => f.label) = [""] := by
  decide

/-- C4 amended: every field produced by a scan has, for grouped ARIA
fields, a non-empty label (candidates there are taken only when truthy and
are never cleaned, the fallback being the kind-specific sentinel); a native
field's label is either the sentinel `"Unlabeled field"` or `cleanLabel` of
its winning heuristic's candidate text — and cleaning can strip a
degenerate candidate (whitespace plus a lone trailing `*` or `:`) to the
empty string, so native labels are not always non-empty. -/
theorem C4_amended (doc : Node) (f : FormField) (hf : f ∈ (detectForms doc).fields) :
    (f.isAria = true → f.label ≠ "") ∧
    (f.isAria = false → f.label = "Unlabeled field" ∨ ∃ t, f.label = cleanLabel t) := by
  have hsplit : f ∈ nativeFieldsOf doc ∨ f ∈ (radioStage doc).1 ∨ f ∈ checkboxStage doc := by
    have hm : f ∈ nativeFieldsOf doc ++ (radioStage doc).1 ++ checkboxStage doc := hf
    rcases List.mem_append.mp hm with h | h
    · rcases List.mem_append.mp h with h2 | h2
      · exact Or.inl h2
      · exact Or.inr (Or.inl h2)
    · exact Or.inr (Or.inr h)
  rcases hsplit with h | h | h
  · obtain ⟨ip, _, hcre⟩ := List.mem_filterMap.mp h
    unfold createFormField at hcre
    split at hcre
    · exact absurd hcre (by simp)
    · injection hcre with hrec
      constructor
      · intro hA
        rw [← hrec] at hA
        exact absurd hA (by simp)
      · intro _
        rw [← hrec]
        exact extractLabel_shape doc ip.2
  · obtain ⟨g, j, hcre⟩ := mem_buildGroupFields _ _ _ f h
    obtain ⟨hA, hL⟩ := createAriaRadioField_inv doc g j f hcre
    refine ⟨fun _ => hL, fun hfalse => ?_⟩
    rw [hfalse] at hA
    exact absurd hA (by simp)
  · obtain ⟨g, j, hcre⟩ := mem_buildGroupFields _ _ _ f h
    obtain ⟨hA, hL⟩ := createAriaCheckboxField_inv doc g j f hcre
    refine ⟨fun _ => hL, fun hfalse => ?_⟩
    rw [hfalse] at hA
    exact absurd hA (by simp)

def c4wDoc : Node := .elem "body" [] [.elem "input" [("type", "text")] []]

def c4wField : FormField :=
  { elem := { hasValue := true, value := "", checked := false }
    type := FieldType.text
    label := "Unlabeled field"
    placeholder := none
    required := false
    value := ""
    id := "hiya-field-0"
    isAria := false
    ariaElements := none
    options := none }

/-- Witness for C4 at a document with one unlabeled input. -/
theorem C4_amended_witness :
    (c4wField.isAria = true → c4wField.label ≠ "") ∧
    (c4wField.isAria = false →
      c4wField.label = "Unlabeled field" ∨ ∃ t, c4wField.label = cleanLabel t) :=
  C4_amended c4wDoc c4wField (by decide)

/-! ## Claim C7 -/

theorem jsObjectValues_of_no_idx {α : Type} (entries : List (String × α))
    (h : ∀ e ∈ entries, (arrayIndexVal e.1).isNone = true) :
    jsObjectValues entries = specOrderValues entries := by
  unfold jsObjectValues specOrderValues
  have h1 : entries.filterMap (fun e => (arrayIndexVal e.1).map (fun n => (n, e.2))) = [] := by
    rw [List.filterMap_eq_nil]
    intro a ha
    have hn := h a ha
    rw [Option.isNone_iff_eq_none] at hn
    rw [hn]
    rfl
  have h2 : entries.filter (fun e => (arrayIndexVal e.1).isNone) = entries :=
    List.filter_eq_self.mpr h
  rw [h1, h2]
  rfl

def c7Doc : Node :=
  .elem "body" []
    [.elem "div"
      [("role", "radio"), ("class", "b"), ("aria-label", "OptB"), ("aria-checked", "true")] [],
     .elem "div"
      [("role", "radio"), ("class", "3"), ("aria-label", "Opt3"), ("aria-checked", "true")] []]

/-- C7 counterexample: two ARIA radio groups keyed by class names `"b"`
(encountered first) and `"3"`; JavaScript's object key order hoists the
array-index-like key `"3"` before `"b"`, so the detected field order is not
the first-encountered order the claim states. -/
theorem C7_counterexample :
    (detectForms c7Doc).fields.map (fun f => f.value) = ["Opt3", "OptB"] ∧
    (detectFormsSpecOrderFields c7Doc).map (fun f => f.value) = ["OptB", "Opt3"] ∧
    (detectForms c7Doc).fields ≠ detectFormsSpecOrderFields c7Doc := by
  decide

/-- C7 amended: for every fixed document the field list is always native
fields in document order, then grouped radio fields, then grouped checkbox
fields; within each group stage the groups follow JavaScript object key
enumeration order — first-encountered order, except that grouping keys that
are canonical array-index strings are hoisted to the front in ascending
numeric order.  When no grouping key is array-index-like, the order is
exactly the first-encountered order the spec describes. -/
theorem C7_amended (doc : Node) :
    (detectForms doc).fields =
      nativeFieldsOf doc ++ (radioStage doc).1 ++ checkboxStage doc ∧
    ((radioGroupsOf doc).all (fun e => (arrayIndexVal e.1).isNone) = true →
      (checkboxGroupsOf doc).all (fun e => (arrayIndexVal e.1).isNone) = true →
      (detectForms doc).fields = detectFormsSpecOrderFields doc) := by
  refine ⟨rfl, ?_⟩
  intro hr hc
  have hr2 := List.all_eq_true.mp hr
  have hc2 := List.all_eq_true.mp hc
  show nativeFieldsOf doc ++ (radioStage doc).1 ++ checkboxStage doc = _
  unfold detectFormsSpecOrderFields checkboxStage radioStage
  rw [jsObjectValues_of_no_idx _ hr2, jsObjectValues_of_no_idx _ hc2]

def c7wDoc : Node :=
  .elem "body" []
    [.elem "input" [("type", "text")] [],
     .elem "div" [("role", "radio"), ("class", "alpha"), ("aria-label", "A")] [],
     .elem "div" [("role", "radio"), ("class", "beta"), ("aria-label", "B")] [],
     .elem "div" [("role", "checkbox"), ("class", "gamma"), ("aria-label", "C")] []]

/-- Witness for C7 at a document whose grouping keys are all
non-numeric: the detected order coincides with first-encounter order. -/
theorem C7_amended_witness :
    (detectForms c7wDoc).fields =
      nativeFieldsOf c7wDoc ++ (radioStage c7wDoc).1 ++ checkboxStage c7wDoc ∧
    (detectForms c7wDoc).fields = detectFormsSpecOrderFields c7wDoc := by
  have h := C7_amended c7wDoc
  exact ⟨h.1, h.2 (by decide) (by decide)⟩

end HiyaSpec
